import Mathlib

/-!
Chirp: a verification development.

A shallow embedding of the storage-tier server (`backend_server.cc`), of the
storage-tier client (`backend_client_lib.cc`) and of the command line tool
(`command_line_tool_lib.cc`), and a model of the service data structure that
`service_test.cc` exercises, followed by the properties proved about them.

Conventions of the embedding.

* `uint64_t` ids and `size_t` sizes are natural numbers; no arithmetic is ever
  done on an id, and a size is only ever compared or counted. The padding
  `PrintChirps` passes on is the size of its stack; its conversion to the
  `unsigned` parameter of `PrintSingleChirp` is the identity on every stack a
  vector of fewer than 2^32 chirps builds, and is not modelled.
* The tick counts of `std::chrono` are integers reduced to the 64-bit signed
  range where the code computes them, and `duration_cast` is the division that
  truncates toward zero. The number of ticks of `system_clock` in a second is
  fixed by the library, not by the repository, and is a parameter.
* A pointer argument that may be null is an `Option`.
* A gRPC stream is the list of messages still to be read together with the
  list of messages written so far; the writer thread of the client and its
  reading loop are run one after the other.
* The thread `Monitor` starts is run as the sequence of its iterations: those it
  makes while `SendMonitorRequest` runs, each with the size of the vector it
  observes, then those it makes while `Monitor` waits in `join`. A loop that may
  not end takes a bound on its iterations and reports whether it was left.
* Standard output is the list of things printed, in order.
* Code of the repository that is not part of the available sources and is called
  by the embedded code (the storage engine behind `backend_data_`, the service
  client behind `service_client`) is a parameter of the definitions that call it.
* The service data structure, of which only the tests are available, is modelled
  from the specification; every such definition says so.
-/

namespace Chirp

/-! ## gRPC status -/

namespace grpc

/-- The status codes of gRPC, in the order of `grpc::StatusCode`. -/
inductive StatusCode where
  | OK | CANCELLED | UNKNOWN | INVALID_ARGUMENT | DEADLINE_EXCEEDED | NOT_FOUND
  | ALREADY_EXISTS | PERMISSION_DENIED | RESOURCE_EXHAUSTED | FAILED_PRECONDITION
  | ABORTED | OUT_OF_RANGE | UNIMPLEMENTED | INTERNAL | UNAVAILABLE | DATA_LOSS
  | UNAUTHENTICATED
  deriving DecidableEq, Repr

/-- The class `grpc::Status`: a code, a message and details. -/
structure Status where
  error_code : StatusCode
  error_message : String
  error_details : String
  deriving DecidableEq, Repr

/-- The constant `grpc::Status::OK`. -/
def Status.OK : Status := ⟨StatusCode.OK, "", ""⟩

/-- The method `grpc::Status::ok()`. -/
def Status.ok (s : Status) : Bool := decide (s.error_code = StatusCode.OK)

end grpc

/-! ## Messages of `key_value.proto` -/

/-- The message `chirp::PutRequest`. -/
structure PutRequest where
  key : String
  value : String
  deriving DecidableEq, Repr

/-- The message `chirp::GetRequest`. -/
structure GetRequest where
  key : String
  deriving DecidableEq, Repr

/-- The message `chirp::GetReply`. -/
structure GetReply where
  value : String
  deriving DecidableEq, Repr

/-- The message `chirp::DeleteRequest`. -/
structure DeleteRequest where
  key : String
  deriving DecidableEq, Repr

/-! ## The storage-tier server, `backend_server.cc` -/

/-- The interface of the member `backend_data_` of `KeyValueStoreImpl`. Its
class is declared in `backend_data_structure.h`, which is not among the
sources, so the three methods the server calls are parameters. `σ` is the state
of the store. `Get key &value` returns its `bool` together with the string it
leaves in `value`, and is a query. -/
structure BackendDataStructure (σ : Type) where
  Put : σ → String → String → Bool × σ
  Get : σ → String → Bool × String
  DeleteKey : σ → String → Bool × σ

/-- The server side of the bidirectional stream of `get`,
`grpc::ServerReaderWriter<GetReply, GetRequest>`: `Read` takes the head of
`requests` and fails when it is empty, `Write` appends to `replies`. -/
structure ServerReaderWriter where
  requests : List GetRequest
  replies : List GetReply
  deriving DecidableEq, Repr

/-- The body of the `while (stream->Read(&request))` loop of
`KeyValueStoreImpl::get`, run until `Read` fails. -/
def KeyValueStoreImpl.get_loop {σ : Type} (backend_data_ : BackendDataStructure σ) (s : σ) :
    List GetRequest → List GetReply → List GetReply
  | [], replies => replies
  | request :: requests, replies =>
    let ret := backend_data_.Get s request.key
    let reply : GetReply := if ret.1 = true then ⟨ret.2⟩ else ⟨""⟩
    KeyValueStoreImpl.get_loop backend_data_ s requests (replies ++ [reply])

/-- The handler `KeyValueStoreImpl::get`. -/
def KeyValueStoreImpl.get {σ : Type} (backend_data_ : BackendDataStructure σ) (s : σ)
    (stream : ServerReaderWriter) : grpc.Status × ServerReaderWriter :=
  (grpc.Status.OK,
    { requests := []
      replies := KeyValueStoreImpl.get_loop backend_data_ s stream.requests stream.replies })

/-- The handler `KeyValueStoreImpl::put`. -/
def KeyValueStoreImpl.put {σ : Type} (backend_data_ : BackendDataStructure σ) (s : σ)
    (request : Option PutRequest) : grpc.Status × σ :=
  match request with
  | none => (⟨grpc.StatusCode.INVALID_ARGUMENT, "`PutRequest` is nullptr.", ""⟩, s)
  | some request =>
    let ret := backend_data_.Put s request.key request.value
    if ret.1 = true then (grpc.Status.OK, ret.2)
    else (⟨grpc.StatusCode.UNKNOWN, "Unknown error happened.", ""⟩, ret.2)

/-- The handler `KeyValueStoreImpl::deletekey`. -/
def KeyValueStoreImpl.deletekey {σ : Type} (backend_data_ : BackendDataStructure σ) (s : σ)
    (request : Option DeleteRequest) : grpc.Status × σ :=
  match request with
  | none => (⟨grpc.StatusCode.INVALID_ARGUMENT, "`PutRequest` is nullptr.", ""⟩, s)
  | some request =>
    let ret := backend_data_.DeleteKey s request.key
    if ret.1 = true then (grpc.Status.OK, ret.2)
    else (⟨grpc.StatusCode.NOT_FOUND, "Unknown error happened.", ""⟩, ret.2)

/-! ## The storage-tier client, `backend_client_lib.cc` -/

/-- The remote end as the client sees it through `stub_`: what each call
answers, over a remote state `ω`. `get` receives every request the client
writes before `WritesDone` and answers the replies the client can read and the
status `Finish` returns. -/
structure Stub (ω : Type) where
  put : ω → PutRequest → grpc.Status × ω
  get : ω → List GetRequest → (List GetReply × grpc.Status) × ω
  deletekey : ω → DeleteRequest → grpc.Status × ω

/-- The stub of a channel that reaches a `KeyValueStoreImpl` whose store is
`backend_data_`: each call runs the handler of the server on the request. -/
def KeyValueStoreImpl.stub {σ : Type} (backend_data_ : BackendDataStructure σ) : Stub σ where
  put := fun s request => KeyValueStoreImpl.put backend_data_ s (some request)
  get := fun s requests =>
    let r := KeyValueStoreImpl.get backend_data_ s ⟨requests, []⟩
    ((r.2.replies, r.1), s)
  deletekey := fun s request => KeyValueStoreImpl.deletekey backend_data_ s (some request)

/-- The data members of `BackendClient`; `channel_` is the target the channel
was created for. -/
structure BackendClient where
  host_ : String
  port_ : String
  channel_ : String
  deriving DecidableEq, Repr

/-- The constructor `BackendClient::BackendClient()`. -/
def BackendClient.BackendClient₀ : BackendClient :=
  { host_ := "localhost", port_ := "50000", channel_ := "localhost" ++ ":" ++ "50000" }

/-- The constructor `BackendClient::BackendClient(const std::string &port)` of
`backend_client_lib.cc`. -/
def BackendClient.BackendClient₁ (port : String) : BackendClient :=
  { host_ := "localhost", port_ := port, channel_ := "localhost" ++ ":" ++ port }

/-- The constructor
`BackendClient::BackendClient(const std::string &host, const std::string &port)`. -/
def BackendClient.BackendClient₂ (host port : String) : BackendClient :=
  { host_ := host, port_ := port, channel_ := host ++ ":" ++ port }

/-- The writer thread of `SendGetRequest`: one request per key, in the order of
`keys`. -/
def BackendClient.SendGetRequest.writer (keys : List String) : List GetRequest :=
  keys.map fun key => ⟨key⟩

/-- The loop `while (stream->Read(&reply)) reply_values->push_back(reply.value())`
of `SendGetRequest`. The result is `none` when the loop dereferences a null
`reply_values`. -/
def BackendClient.SendGetRequest.reader :
    List GetReply → Option (List String) → Option (Option (List String))
  | [], reply_values => some reply_values
  | _ :: _, none => none
  | reply :: replies, some values =>
    BackendClient.SendGetRequest.reader replies (some (values ++ [reply.value]))

/-- The method `BackendClient::SendGetRequest`. The result is `none` when the
call dereferences a null pointer; otherwise it is the returned `bool`, the
vector `reply_values` points to afterwards, and the remote state. -/
def BackendClient.SendGetRequest {ω : Type} (stub_ : Stub ω) (w : ω) (keys : List String)
    (reply_values : Option (List String)) : Option (Bool × Option (List String) × ω) :=
  let r := stub_.get w (BackendClient.SendGetRequest.writer keys)
  match BackendClient.SendGetRequest.reader r.1.1 reply_values with
  | none => none
  | some reply_values => some (r.1.2.ok, reply_values, r.2)

/-- The method `BackendClient::SendPutRequest`. -/
def BackendClient.SendPutRequest {ω : Type} (stub_ : Stub ω) (w : ω) (key value : String) :
    Bool × ω :=
  let r := stub_.put w ⟨key, value⟩
  (r.1.ok, r.2)

/-- The method `BackendClient::SendDeleteKeyRequest`. -/
def BackendClient.SendDeleteKeyRequest {ω : Type} (stub_ : Stub ω) (w : ω) (key : String) :
    Bool × ω :=
  let r := stub_.deletekey w ⟨key⟩
  (r.1.ok, r.2)

/-- The reply `KeyValueStoreImpl::get` owes for one key: the value the store
holds, the empty string when `Get` reports the key absent. -/
def valueFor {σ : Type} (backend_data_ : BackendDataStructure σ) (s : σ) (key : String) :
    String :=
  if (backend_data_.Get s key).1 = true then (backend_data_.Get s key).2 else ""

/-! ## The command line tool, `command_line_tool_lib.cc` -/

/-- Modelled from the spec: the enum `ServiceClient::ReturnCodes`, declared in
`service_client_lib.h`, which is not among the sources. `OK` and
`INVALID_ARGUMENT` are the two codes `command_line_tool_lib.cc` names; the
other three are the remaining outcomes of the error taxonomy of the spec
(AlreadyExists, NotFound, Internal). -/
inductive ServiceClient.ReturnCodes where
  | OK | INVALID_ARGUMENT | ALREADY_EXISTS | NOT_FOUND | INTERNAL
  deriving DecidableEq, Repr

/-- The member `timestamp` of `ServiceClient::Chirp`; the tool reads its field
`seconds`. -/
structure ServiceClient.Timestamp where
  seconds : Int
  deriving DecidableEq, Repr

/-- The struct `ServiceClient::Chirp`, with the fields the tool reads. -/
structure ServiceClient.Chirp where
  id : Nat
  username : String
  text : String
  parent_id : Nat
  timestamp : ServiceClient.Timestamp
  deriving DecidableEq, Repr

/-- A request sent through `service_client`. -/
inductive Request where
  | RegisterUser (username : String)
  | Chirp (username text : String) (parent_id : Nat)
  | Follow (username to_follow : String)
  | Read (chirp_id : Nat)
  | Monitor (username : String)
  deriving DecidableEq, Repr

/-- The interface of the global `command_tool::service_client`. The class is
defined in `service_client_lib.cc`, which is not among the sources, so the
methods the tool calls are parameters; `ω` is the state of everything behind
the client. A method that fills an output argument returns what it leaves
there. -/
structure ServiceClient (ω : Type) where
  SendRegisterUserRequest : ω → String → ServiceClient.ReturnCodes × ω
  SendChirpRequest : ω → String → String → Nat →
    ServiceClient.ReturnCodes × ServiceClient.Chirp × ω
  SendFollowRequest : ω → String → String → ServiceClient.ReturnCodes × ω
  SendReadRequest : ω → Nat → ServiceClient.ReturnCodes × List ServiceClient.Chirp × ω
  ErrorMsgs : ServiceClient.ReturnCodes → String

/-- One thing written to `std::cout`: a piece of text, or everything one call
`PrintSingleChirp(chirp, padding)` writes. -/
inductive Out where
  | str (text : String)
  | PrintSingleChirp (chirp : ServiceClient.Chirp) (padding : Nat)
  deriving DecidableEq, Repr

/-- What a command of the tool acts on: standard output, the state behind
`service_client`, and the requests sent through `service_client` so far. -/
structure World (ω : Type) where
  cout : List Out
  service : ω
  sent : List Request

/-- Writes to `std::cout`. -/
def World.print {ω : Type} (w : World ω) (out : List Out) : World ω :=
  { w with cout := w.cout ++ out }

/-- The line `PrintChirps` writes around every chirp. -/
def command_tool.separator : Out := Out.str "--------------------------\n"

/-- The loop `while (!dfs.empty() && dfs.top() != chirp.parent_id) dfs.pop();`
of `PrintChirps`; the head of the list is the top of the stack. -/
def command_tool.PrintChirps.pop (parent_id : Nat) : List Nat → List Nat
  | [] => []
  | top :: dfs =>
    if top ≠ parent_id then command_tool.PrintChirps.pop parent_id dfs else top :: dfs

/-- The loop `for (const auto &chirp : chirps)` of `PrintChirps`, from a stack
`dfs` and with `cout` written so far; it returns the stack and the output when
the loop is left. -/
def command_tool.PrintChirps.loop :
    List ServiceClient.Chirp → List Nat → List Out → List Nat × List Out
  | [], dfs, cout => (dfs, cout)
  | chirp :: chirps, dfs, cout =>
    let dfs := command_tool.PrintChirps.pop chirp.parent_id dfs
    let cout := cout ++ [Out.PrintSingleChirp chirp dfs.length, command_tool.separator]
    let dfs := if dfs.isEmpty ∨ dfs.head? = some chirp.parent_id then chirp.id :: dfs else dfs
    command_tool.PrintChirps.loop chirps dfs cout

/-- The function `command_tool::PrintChirps`: what it writes to `std::cout`. -/
def command_tool.PrintChirps (chirps : List ServiceClient.Chirp) : List Out :=
  (command_tool.PrintChirps.loop chirps [] [command_tool.separator]).2

/-- The function `command_tool::Register`. -/
def command_tool.Register {ω : Type} (service_client : ServiceClient ω) (usage : String)
    (w : World ω) (username : String) : ServiceClient.ReturnCodes × World ω :=
  let w := w.print [Out.str "Registered username: ", Out.str username, Out.str ": "]
  if username.isEmpty then
    (ServiceClient.ReturnCodes.INVALID_ARGUMENT,
      w.print [Out.str "Empty username.\n", Out.str usage])
  else
    let r := service_client.SendRegisterUserRequest w.service username
    let w := { w with service := r.2, sent := w.sent ++ [Request.RegisterUser username] }
    (r.1, w.print [Out.str (service_client.ErrorMsgs r.1), Out.str "\n"])

/-- The function `command_tool::Chirp`. -/
def command_tool.Chirp {ω : Type} (service_client : ServiceClient ω) (usage : String)
    (w : World ω) (username text : String) (parent_id : Nat) :
    ServiceClient.ReturnCodes × World ω :=
  let w := w.print [Out.str "Posted a chirp as ", Out.str username, Out.str ": "]
  if username.isEmpty then
    (ServiceClient.ReturnCodes.INVALID_ARGUMENT,
      w.print [Out.str "Empty username.\n", Out.str usage])
  else if text.isEmpty then
    (ServiceClient.ReturnCodes.INVALID_ARGUMENT,
      w.print [Out.str "Empty text.\n", Out.str usage])
  else
    let r := service_client.SendChirpRequest w.service username text parent_id
    let w := { w with service := r.2.2, sent := w.sent ++ [Request.Chirp username text parent_id] }
    let w := w.print [Out.str (service_client.ErrorMsgs r.1), Out.str "\n"]
    if r.1 = ServiceClient.ReturnCodes.OK then
      (r.1, w.print [Out.str "\n", Out.PrintSingleChirp r.2.1 0])
    else
      (r.1, w)

/-- The function `command_tool::Follow`. -/
def command_tool.Follow {ω : Type} (service_client : ServiceClient ω) (usage : String)
    (w : World ω) (username to_follow : String) : ServiceClient.ReturnCodes × World ω :=
  let w := w.print
    [Out.str "Followed ", Out.str to_follow, Out.str " as ", Out.str username, Out.str ": "]
  if username.isEmpty then
    (ServiceClient.ReturnCodes.INVALID_ARGUMENT,
      w.print [Out.str "Empty username.\n", Out.str usage])
  else if to_follow.isEmpty then
    (ServiceClient.ReturnCodes.INVALID_ARGUMENT,
      w.print [Out.str "Empty followee username.\n", Out.str usage])
  else
    let r := service_client.SendFollowRequest w.service username to_follow
    let w := { w with service := r.2, sent := w.sent ++ [Request.Follow username to_follow] }
    (r.1, w.print [Out.str (service_client.ErrorMsgs r.1), Out.str "\n"])

/-- The function `command_tool::Read`. -/
def command_tool.Read {ω : Type} (service_client : ServiceClient ω)
    (w : World ω) (chirp_id : Nat) : ServiceClient.ReturnCodes × World ω :=
  let w := w.print [Out.str "Read a chirp with id ", Out.str (toString chirp_id), Out.str ": "]
  let r := service_client.SendReadRequest w.service chirp_id
  let w := { w with service := r.2.2, sent := w.sent ++ [Request.Read chirp_id] }
  let w := w.print [Out.str (service_client.ErrorMsgs r.1), Out.str "\n"]
  if r.1 = ServiceClient.ReturnCodes.OK then
    (r.1, w.print (Out.str "\n" :: command_tool.PrintChirps r.2.1))
  else
    (r.1, w)

/-- The calls of `PrintSingleChirp` in an output, in order: the chirp printed
and the padding it was given. -/
def Out.calls : List Out → List (ServiceClient.Chirp × Nat)
  | [] => []
  | Out.str _ :: out => Out.calls out
  | Out.PrintSingleChirp chirp padding :: out => (chirp, padding) :: Out.calls out

/-- The chirps `PrintChirps` prints with the padding of each, in the order
printed. -/
def command_tool.PrintChirps.printed (chirps : List ServiceClient.Chirp) :
    List (ServiceClient.Chirp × Nat) :=
  Out.calls (command_tool.PrintChirps chirps)

/-- A forest of chirps in first-reply / next-sibling form: `node chirp replies
siblings` is the tree of `chirp`, whose replies are the trees of `replies`,
followed by the trees of `siblings`. -/
inductive Forest where
  | nil
  | node (chirp : ServiceClient.Chirp) (replies siblings : Forest)
  deriving DecidableEq, Repr

/-- The depth-first pre-order listing of a forest whose roots are at reply depth
`depth`: each chirp with its reply depth. -/
def Forest.listing (depth : Nat) : Forest → List (ServiceClient.Chirp × Nat)
  | Forest.nil => []
  | Forest.node chirp replies siblings =>
    (chirp, depth) :: (Forest.listing (depth + 1) replies ++ Forest.listing depth siblings)

/-- The depth-first pre-order listing of the chirps of a forest. -/
def Forest.preorder : Forest → List ServiceClient.Chirp
  | Forest.nil => []
  | Forest.node chirp replies siblings =>
    chirp :: (Forest.preorder replies ++ Forest.preorder siblings)

/-- Every root of the forest has parent id `parent_id`, and every other chirp
has the id of the chirp it is listed under as its parent id. -/
def Forest.childrenOf (parent_id : Nat) : Forest → Prop
  | Forest.nil => True
  | Forest.node chirp replies siblings =>
    chirp.parent_id = parent_id ∧ Forest.childrenOf chirp.id replies
      ∧ Forest.childrenOf parent_id siblings

instance Forest.decidableChildrenOf : (parent_id : Nat) → (f : Forest) →
    Decidable (Forest.childrenOf parent_id f)
  | _, Forest.nil => isTrue trivial
  | parent_id, Forest.node chirp replies siblings =>
    have _ := Forest.decidableChildrenOf chirp.id replies
    have _ := Forest.decidableChildrenOf parent_id siblings
    inferInstanceAs (Decidable (_ ∧ _ ∧ _))

/-- The tree of a first chirp `root` and the forest of its replies. -/
def Forest.tree (root : ServiceClient.Chirp) (replies : Forest) : Forest :=
  Forest.node root replies Forest.nil

/-- The ids of the chirps of a forest, in pre-order. -/
def Forest.ids (f : Forest) : List Nat :=
  f.preorder.map ServiceClient.Chirp.id

/-- What `PrintChirps` writes for a list of chirps with their paddings: each
chirp, then the separator line. -/
def command_tool.PrintChirps.render (l : List (ServiceClient.Chirp × Nat)) : List Out :=
  l.flatMap fun cp => [Out.PrintSingleChirp cp.1 cp.2, command_tool.separator]

/-- A service client over a counter: every request succeeds and adds one to the
counter; a chirp request answers the chirp asked for, a read request answers
nothing. -/
def ServiceClient.counting : ServiceClient Nat where
  SendRegisterUserRequest := fun n _ => (ServiceClient.ReturnCodes.OK, n + 1)
  SendChirpRequest := fun n username text parent_id =>
    (ServiceClient.ReturnCodes.OK, ⟨n + 1, username, text, parent_id, ⟨0⟩⟩, n + 1)
  SendFollowRequest := fun n _ _ => (ServiceClient.ReturnCodes.OK, n + 1)
  SendReadRequest := fun n _ => (ServiceClient.ReturnCodes.OK, [], n + 1)
  ErrorMsgs := fun code => if code = ServiceClient.ReturnCodes.OK then "OK" else "failed"

/-- The world before any command: nothing printed, nothing sent, the counter of
`ServiceClient.counting` at 0. -/
def World.start : World Nat :=
  { cout := [], service := 0, sent := [] }

/-- A chirp of user `"u"` with text `"short"`, given its id and parent id. -/
def sampleChirp (id parent_id : Nat) : ServiceClient.Chirp :=
  ⟨id, "u", "short", parent_id, ⟨0⟩⟩

/-- The replies of the tree of the `Read` test of `service_test.cc`, under a
root of id 1: chirps 2, 3, 4 reply to 1 and chirps 5, 6, 7 reply to 2. -/
def sampleReplies : Forest :=
  Forest.node (sampleChirp 2 1)
    (Forest.node (sampleChirp 5 2) Forest.nil
      (Forest.node (sampleChirp 6 2) Forest.nil
        (Forest.node (sampleChirp 7 2) Forest.nil Forest.nil)))
    (Forest.node (sampleChirp 3 1) Forest.nil
      (Forest.node (sampleChirp 4 1) Forest.nil Forest.nil))

/-! ## The service tier

The service data structure (`service_data_structure.h`, `.cc`) is exercised by
`service_test.cc` but is not among the sources. The definitions of this section
follow sections 3 and 4 of the specification, with the names `service_test.cc`
uses. The storage tier is taken to succeed. -/

/-- Modelled from the spec: the error taxonomy of section 7. -/
inductive Service.Error where
  | InvalidArgument | AlreadyExists | NotFound | Internal
  deriving DecidableEq, Repr

/-- Modelled from the spec: a chirp as stored by the missing chirp store, the
record of section 3 (id, author username, text, creation timestamp, parent id,
0 for a root) with the tombstone `Delete` leaves. -/
structure Service.ChirpRecord where
  id : Nat
  username : String
  text : String
  created_at : Nat
  parent_id : Nat
  removed : Bool
  deriving DecidableEq, Repr

/-- Modelled from the spec: the missing `ServiceDataStructure::UserSession`, a
handle bound to one username (section 3). -/
structure Service.UserSession where
  handle : Nat
  username : String
  deriving DecidableEq, Repr

/-- Modelled from the spec: the missing `UserSession::SessionGetUsername`, the
username the session is bound to. -/
def Service.UserSession.SessionGetUsername (session : Service.UserSession) : String :=
  session.username

/-- Modelled from the spec: the state of the missing `ServiceDataStructure`:
the registered users, every chirp ever posted in post order, the global id
counter (the last id assigned), the follow edges, and the number of sessions
handed out. -/
structure ServiceDataStructure where
  users : List String
  chirps : List Service.ChirpRecord
  counter : Nat
  follows : List (String × String)
  logins : Nat
  deriving DecidableEq, Repr

/-- Modelled from the spec: the missing service data structure before any
call. -/
def ServiceDataStructure.init : ServiceDataStructure :=
  { users := [], chirps := [], counter := 0, follows := [], logins := 0 }

/-- Modelled from the spec: the missing `ServiceDataStructure::UserRegister`,
section 4.1, "fails AlreadyExists if taken; else creates the User". -/
def ServiceDataStructure.UserRegister (s : ServiceDataStructure) (username : String) :
    Bool × ServiceDataStructure :=
  if username ∈ s.users then (false, s)
  else (true, { s with users := s.users ++ [username] })

/-- Modelled from the spec: the missing `ServiceDataStructure::UserLogin`,
section 4.1, "returns a new Session object bound to username; fails NotFound if
unregistered"; `none` is the null session. -/
def ServiceDataStructure.UserLogin (s : ServiceDataStructure) (username : String) :
    Option Service.UserSession × ServiceDataStructure :=
  if username ∈ s.users then
    (some { handle := s.logins + 1, username := username }, { s with logins := s.logins + 1 })
  else (none, s)

/-- Modelled from the spec: the record the missing chirp store holds under an
id, removed or not. -/
def ServiceDataStructure.lookup (s : ServiceDataStructure) (id : Nat) :
    Option Service.ChirpRecord :=
  s.chirps.find? fun c => decide (c.id = id)

/-- Modelled from the spec: the missing `ServiceDataStructure::ReadChirp`, the
chirp under an id; `none` (the call returns false) when the id is unknown or the
chirp removed. -/
def ServiceDataStructure.ReadChirp (s : ServiceDataStructure) (id : Nat) :
    Option Service.ChirpRecord :=
  (s.lookup id).filter fun c => !c.removed

/-- Modelled from the spec: the missing `UserSession::PostChirp`, section 4.2,
"fails InvalidArgument if author unregistered or text empty; fails NotFound if
parent_id is nonzero and never existed; otherwise assigns the next id from one
global strictly-increasing counter, stores the record, returns it". `now` is
the creation time. -/
def ServiceDataStructure.PostChirp (s : ServiceDataStructure) (author text : String)
    (parent_id now : Nat) : Except Service.Error (Service.ChirpRecord × ServiceDataStructure) :=
  if author ∉ s.users ∨ text = "" then Except.error Service.Error.InvalidArgument
  else if parent_id ≠ 0 ∧ s.lookup parent_id = none then Except.error Service.Error.NotFound
  else
    let record : Service.ChirpRecord :=
      { id := s.counter + 1, username := author, text := text, created_at := now,
        parent_id := parent_id, removed := false }
    Except.ok (record, { s with chirps := s.chirps ++ [record], counter := s.counter + 1 })

/-- Modelled from the spec: the missing `UserSession::EditChirp`, section 4.2,
"replaces text in place; fails NotFound if id unknown or removed". -/
def ServiceDataStructure.EditChirp (s : ServiceDataStructure) (id : Nat) (text : String) :
    Bool × ServiceDataStructure :=
  match s.ReadChirp id with
  | none => (false, s)
  | some _ =>
    (true,
      { s with chirps := s.chirps.map fun c => if c.id = id then { c with text := text } else c })

/-- Modelled from the spec: the missing `UserSession::DeleteChirp`, section 4.2,
"tombstones the record; fails NotFound if already removed or unknown; never
cascades". -/
def ServiceDataStructure.DeleteChirp (s : ServiceDataStructure) (id : Nat) :
    Bool × ServiceDataStructure :=
  match s.ReadChirp id with
  | none => (false, s)
  | some _ =>
    (true,
      { s with
        chirps := s.chirps.map fun c => if c.id = id then { c with removed := true } else c })

/-- Modelled from the spec: the missing `UserSession::Follow`, section 4.3,
"fails NotFound if either is unregistered, fails AlreadyExists if the edge is
already present; otherwise adds the edge". -/
def ServiceDataStructure.Follow (s : ServiceDataStructure) (follower followee : String) :
    Except Service.Error ServiceDataStructure :=
  if follower ∉ s.users ∨ followee ∉ s.users then Except.error Service.Error.NotFound
  else if (follower, followee) ∈ s.follows then Except.error Service.Error.AlreadyExists
  else Except.ok { s with follows := s.follows ++ [(follower, followee)] }

/-- Modelled from the spec: the missing `UserSession::SessionGetUserChirpList`,
the ids of the still-present chirps of a user in post order, as
`service_test.cc` reads it after posting and after deleting. -/
def ServiceDataStructure.SessionGetUserChirpList (s : ServiceDataStructure) (username : String) :
    List Nat :=
  (s.chirps.filter fun c => decide (c.username = username) && !c.removed).map
    Service.ChirpRecord.id

/-- Modelled from the spec: the ids of the direct replies to a chirp, removed or
not, in ascending id order, which is post order (the index of section 9). -/
def ServiceDataStructure.children (s : ServiceDataStructure) (id : Nat) : List Nat :=
  (s.chirps.filter fun c => decide (c.parent_id = id)).map Service.ChirpRecord.id

/-- Modelled from the spec: the traversal of the missing `Read`, section 4.2,
"visit the node, then recursively visit each direct child's full subtree before
the next sibling, with children visited in ascending-id order; removed nodes are
skipped entirely from output while their still-present children still appear".
`fuel` bounds the depth of the recursion. -/
def ServiceDataStructure.subtree (s : ServiceDataStructure) :
    Nat → Nat → List Service.ChirpRecord
  | 0, _ => []
  | fuel + 1, id =>
    (s.ReadChirp id).toList ++ (s.children id).flatMap (ServiceDataStructure.subtree s fuel)

/-- Modelled from the spec: the missing `Read`, section 4.2, "returns the chirp
at id plus every still-present descendant, in depth-first pre-order; fails
NotFound if id itself is unknown or removed". A reply has a larger id than its
parent and no id exceeds the counter, so the counter bounds the depth. -/
def ServiceDataStructure.Read (s : ServiceDataStructure) (id : Nat) :
    Except Service.Error (List Service.ChirpRecord) :=
  match s.ReadChirp id with
  | none => Except.error Service.Error.NotFound
  | some _ => Except.ok (s.subtree (s.counter + 1) id)

/-- Modelled from the spec: a call on the missing service data structure. -/
inductive Service.Op where
  | UserRegister (username : String)
  | UserLogin (username : String)
  | PostChirp (author text : String) (parent_id now : Nat)
  | EditChirp (id : Nat) (text : String)
  | DeleteChirp (id : Nat)
  | Follow (follower followee : String)
  deriving DecidableEq, Repr

/-- Modelled from the spec: the state after one call; a call that fails leaves
the state as it was. -/
def ServiceDataStructure.step (s : ServiceDataStructure) : Service.Op → ServiceDataStructure
  | Service.Op.UserRegister username => (s.UserRegister username).2
  | Service.Op.UserLogin username => (s.UserLogin username).2
  | Service.Op.PostChirp author text parent_id now =>
    match s.PostChirp author text parent_id now with
    | Except.ok r => r.2
    | Except.error _ => s
  | Service.Op.EditChirp id text => (s.EditChirp id text).2
  | Service.Op.DeleteChirp id => (s.DeleteChirp id).2
  | Service.Op.Follow follower followee =>
    match s.Follow follower followee with
    | Except.ok s' => s'
    | Except.error _ => s

/-- Modelled from the spec: the state after a sequence of calls. -/
def ServiceDataStructure.run (s : ServiceDataStructure) (ops : List Service.Op) :
    ServiceDataStructure :=
  ops.foldl ServiceDataStructure.step s

/-- `b` is `a` or a reply, direct or not, below `a`: the chain of parent ids from
`b` reaches `a`, through removed chirps as well. -/
inductive ServiceDataStructure.Descends (s : ServiceDataStructure) : Nat → Nat → Prop where
  | self (a : Nat) : ServiceDataStructure.Descends s a a
  | reply (a : Nat) (c : Service.ChirpRecord) (b : Nat) :
      c ∈ s.chirps → c.parent_id = a → ServiceDataStructure.Descends s c.id b →
      ServiceDataStructure.Descends s a b

/-- The calls of the `Read` test of `service_test.cc` for one user: a root, three
replies to it, three replies to the first of them. -/
def readTestOps (user : String) : List Service.Op :=
  [Service.Op.UserRegister user,
   Service.Op.PostChirp user "short" 0 10,
   Service.Op.PostChirp user "short" 1 11,
   Service.Op.PostChirp user "short" 1 12,
   Service.Op.PostChirp user "short" 1 13,
   Service.Op.PostChirp user "short" 2 14,
   Service.Op.PostChirp user "short" 2 15,
   Service.Op.PostChirp user "short" 2 16]

/-- Calls after which `Read` of chirp 1 skips a removed chirp: chirp 2 replies to
chirp 1, chirp 3 to chirp 2, chirp 4 to chirp 1, and chirp 2 is deleted. -/
def orphanTestOps : List Service.Op :=
  [Service.Op.UserRegister "u",
   Service.Op.PostChirp "u" "short" 0 0,
   Service.Op.PostChirp "u" "short" 1 0,
   Service.Op.PostChirp "u" "short" 2 0,
   Service.Op.PostChirp "u" "short" 1 0,
   Service.Op.DeleteChirp 2]

/-- The chirp the service client hands to the tool for a stored chirp. -/
def Service.ChirpRecord.toChirp (c : Service.ChirpRecord) : ServiceClient.Chirp :=
  { id := c.id, username := c.username, text := c.text, parent_id := c.parent_id,
    timestamp := ⟨c.created_at⟩ }

/-- The invariant of the states of the service data structure: every id is at
least 1 and at most the counter, a reply has a larger id than its parent, and
the chirps are stored in ascending id order. -/
def ServiceDataStructure.WellFormed (s : ServiceDataStructure) : Prop :=
  (∀ c ∈ s.chirps, 1 ≤ c.id ∧ c.id ≤ s.counter ∧ c.parent_id < c.id)
    ∧ (s.chirps.map Service.ChirpRecord.id).Pairwise (· < ·)

/-- The chirp under `id` is removed: the store holds a record for it, with the
tombstone set. -/
def ServiceDataStructure.Tombstoned (s : ServiceDataStructure) (id : Nat) : Prop :=
  ∃ c, s.lookup id = some c ∧ c.removed = true

/-- The function `DeleteChirp` maps over the stored chirps. -/
def Service.ChirpRecord.tombstone (id : Nat) (c : Service.ChirpRecord) : Service.ChirpRecord :=
  if c.id = id then { c with removed := true } else c

/-- The posts of the deletion test of `service_test.cc` for one user: ten chirps,
each a reply to the one before. -/
def chainTestOps : List Service.Op :=
  [Service.Op.UserRegister "user0",
   Service.Op.PostChirp "user0" "Chirp #0short" 0 10,
   Service.Op.PostChirp "user0" "Chirp #1short" 1 11,
   Service.Op.PostChirp "user0" "Chirp #2short" 2 12,
   Service.Op.PostChirp "user0" "Chirp #3short" 3 13,
   Service.Op.PostChirp "user0" "Chirp #4short" 4 14,
   Service.Op.PostChirp "user0" "Chirp #5short" 5 15,
   Service.Op.PostChirp "user0" "Chirp #6short" 6 16,
   Service.Op.PostChirp "user0" "Chirp #7short" 7 17,
   Service.Op.PostChirp "user0" "Chirp #8short" 8 18,
   Service.Op.PostChirp "user0" "Chirp #9short" 9 19]

/-- The texts `ReadChirp` returns for the ids of the chirp list of a user, in the
order of the list. -/
def ServiceDataStructure.userTexts (s : ServiceDataStructure) (username : String) :
    List (Option String) :=
  (s.SessionGetUserChirpList username).map fun id =>
    (s.ReadChirp id).map Service.ChirpRecord.text

/-- Modelled from the spec: the list the missing `Read` returns for an id that is
present, the traversal with the fuel `Read` gives it. -/
def ServiceDataStructure.thread (s : ServiceDataStructure) (id : Nat) :
    List Service.ChirpRecord :=
  s.subtree (s.counter + 1) id

/-- The states the service data structure can be in: those a sequence of calls
leads to from the initial state. -/
def ServiceDataStructure.Reachable (s : ServiceDataStructure) : Prop :=
  ∃ ops : List Service.Op, s = ServiceDataStructure.init.run ops

/-! ## The command line tool: relative age and monitoring -/

/-- The constant `kPollingInterval` of `command_line_tool_lib.cc`, the
milliseconds the thread of `Monitor` sleeps after each iteration. -/
def command_tool.kPollingInterval : Nat := 100

/-- The value a 64-bit signed count of ticks holds for the integer `x`: `x` when
it fits, and `x` reduced modulo 2^64 into the signed range otherwise. -/
def chrono.int64 (x : Int) : Int :=
  (x + 9223372036854775808) % 18446744073709551616 - 9223372036854775808

/-- The count of `std::chrono::duration_cast` of `count` ticks to a unit of
`ticksPerUnit` ticks: the quotient, truncated toward zero. -/
def chrono.duration_cast (ticksPerUnit count : Int) : Int :=
  count.tdiv ticksPerUnit

/-- The variable `diff` of `PrintTimeDiff`, `now - post_time_tp`, as a count of
ticks of `system_clock`. `ticks` is the number of ticks of `system_clock` in a
second, which the implementation of the library fixes, and `now` is the count
`system_clock::now()` holds. -/
def command_tool.PrintTimeDiff.diff (ticks : Nat) (now : Int) (chirp : ServiceClient.Chirp) :
    Int :=
  let post_time_tp := chrono.int64 (chirp.timestamp.seconds * (ticks : Int))
  chrono.int64 (now - post_time_tp)

/-- The function `command_tool::PrintTimeDiff`: what it writes to `std::cout`.
The comparison of the whole hours with `seconds(kSecondsPerDay)` is made in
seconds, the common unit of the two durations. -/
def command_tool.PrintTimeDiff (ticks : Nat) (now : Int) (chirp : ServiceClient.Chirp) :
    List Out :=
  let diff := command_tool.PrintTimeDiff.diff ticks now chirp
  let kSecondsPerDay : Int := 86400
  (if chrono.duration_cast (3600 * (ticks : Int)) diff * 3600 > kSecondsPerDay then
    [Out.str (toString ((chrono.duration_cast (3600 * (ticks : Int)) diff).tdiv 24)),
      Out.str " day(s) ago"]
  else if chrono.duration_cast (3600 * (ticks : Int)) diff > 0 then
    [Out.str (toString (chrono.duration_cast (3600 * (ticks : Int)) diff)),
      Out.str " hour(s) ago"]
  else if chrono.duration_cast (60 * (ticks : Int)) diff > 0 then
    [Out.str (toString (chrono.duration_cast (60 * (ticks : Int)) diff)),
      Out.str " min(s) ago"]
  else
    [Out.str (toString (chrono.duration_cast (ticks : Int) diff)), Out.str " sec(s) ago"])
    ++ [Out.str " "]

/-- A chirp posted at the given second. -/
def chirpAt (seconds : Int) : ServiceClient.Chirp :=
  ⟨1, "u", "short", 0, ⟨seconds⟩⟩

/-- What the thread `print_chirps` of `Monitor` works on: its local variable
`last_size` and standard output. -/
structure command_tool.Monitor.State where
  last_size : Nat
  cout : List Out
  deriving DecidableEq, Repr

/-- The loop `for (size_t i = last_size; i < current_size; ++i)
PrintSingleChirp(chirps[i], 0);` of the thread of `Monitor`: `n` iterations from
index `i` on, `n` being `current_size - i` when the loop is entered. An index
outside of `chirps` is not reached, `current_size` being `chirps.size()`. -/
def command_tool.Monitor.for_loop (chirps : List ServiceClient.Chirp) :
    Nat → Nat → List Out → List Out
  | 0, _, cout => cout
  | n + 1, i, cout =>
    match chirps[i]? with
    | some chirp =>
      command_tool.Monitor.for_loop chirps n (i + 1) (cout ++ [Out.PrintSingleChirp chirp 0])
    | none => command_tool.Monitor.for_loop chirps n (i + 1) cout

/-- The body of the loop `while (1)` of the thread of `Monitor`, run while the
vector holds `chirps`; the sleep at its end changes nothing. -/
def command_tool.Monitor.body (chirps : List ServiceClient.Chirp)
    (st : command_tool.Monitor.State) : command_tool.Monitor.State :=
  let current_size := chirps.length
  { last_size := current_size
    cout := command_tool.Monitor.for_loop chirps (current_size - st.last_size) st.last_size
      st.cout }

/-- The iterations of the thread `print_chirps` of `Monitor` while the vector
receives `chirps`: one iteration per element of `sizes`, the size of the vector
the iteration observes; the vector then holds the first that many chirps. -/
def command_tool.Monitor.print_chirps (chirps : List ServiceClient.Chirp) (sizes : List Nat)
    (st : command_tool.Monitor.State) : command_tool.Monitor.State :=
  sizes.foldl (fun st size => command_tool.Monitor.body (chirps.take size) st) st

/-- The call `print_chirps.join()` of `Monitor`, which returns once the function
of the thread returns: the loop `while (1)` of the thread run for at most `fuel`
iterations on the final vector. The result says whether the loop was left, and
holds the state reached. -/
def command_tool.Monitor.join (chirps : List ServiceClient.Chirp) :
    Nat → command_tool.Monitor.State → Bool × command_tool.Monitor.State
  | 0, st => (false, st)
  | fuel + 1, st =>
    if (1 : Nat) ≠ 0 then
      command_tool.Monitor.join chirps fuel (command_tool.Monitor.body chirps st)
    else (true, st)

/-- The function `command_tool::Monitor`. `SendMonitorRequest` is the method of
`service_client` it calls, a parameter like the other methods: it returns its
code, the chirps it has appended to the vector and the state behind the client.
`sizes` are the sizes of the vector the thread observes in the iterations it
makes before `SendMonitorRequest` returns, and `fuel` bounds the iterations it
makes after. The result is the code returned, `none` when `Monitor` has not
returned within `fuel` iterations, and the world reached. -/
def command_tool.Monitor {ω : Type} (service_client : ServiceClient ω)
    (SendMonitorRequest :
      ω → String → ServiceClient.ReturnCodes × List ServiceClient.Chirp × ω)
    (usage : String) (w : World ω) (username : String) (sizes : List Nat) (fuel : Nat) :
    Option ServiceClient.ReturnCodes × World ω :=
  let w := w.print [Out.str "Monitored as ", Out.str username, Out.str ": "]
  if username.isEmpty then
    (some ServiceClient.ReturnCodes.INVALID_ARGUMENT,
      w.print [Out.str "Empty username.\n", Out.str usage])
  else
    let w := w.print [Out.str "\n"]
    let r := SendMonitorRequest w.service username
    let st := command_tool.Monitor.print_chirps r.2.1 sizes ⟨0, w.cout⟩
    let w : World ω :=
      { cout := st.cout, service := r.2.2, sent := w.sent ++ [Request.Monitor username] }
    let w := w.print [Out.str (service_client.ErrorMsgs r.1), Out.str "\n"]
    let joined := command_tool.Monitor.join r.2.1 fuel ⟨st.last_size, w.cout⟩
    if joined.1 = true then (some r.1, { w with cout := joined.2.cout })
    else (none, { w with cout := joined.2.cout })

/-- A `SendMonitorRequest` that fails at once: the user is not found, no chirp
is received, and the counter of `ServiceClient.counting` goes up by one. -/
def ServiceClient.failingMonitor (n : Nat) (_ : String) :
    ServiceClient.ReturnCodes × List ServiceClient.Chirp × Nat :=
  (ServiceClient.ReturnCodes.NOT_FOUND, [], n + 1)

/-- The chirps `PrintChirps` prints from a stack `dfs` on, with the padding of
each: a chirp is printed at the height the stack has once the ids above its
parent are popped, and its id is then pushed. -/
def command_tool.PrintChirps.pads :
    List ServiceClient.Chirp → List Nat → List (ServiceClient.Chirp × Nat)
  | [], _ => []
  | chirp :: chirps, dfs =>
    (chirp, (command_tool.PrintChirps.pop chirp.parent_id dfs).length)
      :: command_tool.PrintChirps.pads chirps
          (chirp.id :: command_tool.PrintChirps.pop chirp.parent_id dfs)

/-! ## Theorems -/

theorem KeyValueStoreImpl.get_loop_eq {σ : Type} (bd : BackendDataStructure σ) (s : σ)
    (requests : List GetRequest) (replies : List GetReply) :
    KeyValueStoreImpl.get_loop bd s requests replies
      = replies ++ requests.map fun r => (⟨valueFor bd s r.key⟩ : GetReply) := by
  induction requests generalizing replies with
  | nil => simp [KeyValueStoreImpl.get_loop]
  | cons r rs ih =>
    simp only [KeyValueStoreImpl.get_loop, ih, List.map_cons, List.append_assoc,
      List.singleton_append]
    congr 2
    unfold valueFor
    split <;> rfl

theorem BackendClient.SendGetRequest.reader_some (replies : List GetReply) (values : List String) :
    BackendClient.SendGetRequest.reader replies (some values)
      = some (some (values ++ replies.map fun r => r.value)) := by
  induction replies generalizing values with
  | nil => simp [BackendClient.SendGetRequest.reader]
  | cons r rs ih => simp [BackendClient.SendGetRequest.reader, ih]

/-- C1: for every store, every store state, every list of requested keys and
whatever was written to the stream before, `KeyValueStoreImpl::get` finishes
with status OK and has written one reply per request, in request order, the
reply for a key carrying the value the store holds for it, or the empty string
when `Get` reports the key absent; and `BackendClient::SendGetRequest`, talking
to that server, appends exactly those values to `reply_values`, in the same
order, and returns `true`. -/
theorem get_replies_in_request_order {σ : Type} (backend_data_ : BackendDataStructure σ) (s : σ)
    (keys : List String) (written : List GetReply) (reply_values : List String) :
    (KeyValueStoreImpl.get backend_data_ s ⟨keys.map GetRequest.mk, written⟩).1 = grpc.Status.OK
    ∧ (KeyValueStoreImpl.get backend_data_ s ⟨keys.map GetRequest.mk, written⟩).2.replies
        = written ++ keys.map (fun k => GetReply.mk (valueFor backend_data_ s k))
    ∧ (KeyValueStoreImpl.get backend_data_ s
          ⟨keys.map GetRequest.mk, written⟩).2.replies.length
        = written.length + keys.length
    ∧ (∀ i : Nat,
        ((KeyValueStoreImpl.get backend_data_ s ⟨keys.map GetRequest.mk, []⟩).2.replies.map
            GetReply.value)[i]?
          = keys[i]?.map fun k =>
              if (backend_data_.Get s k).1 = true then (backend_data_.Get s k).2 else "")
    ∧ BackendClient.SendGetRequest (KeyValueStoreImpl.stub backend_data_) s keys
          (some reply_values)
        = some (true, some (reply_values ++ keys.map (valueFor backend_data_ s)), s) := by
  have hloop : ∀ w : List GetReply,
      (KeyValueStoreImpl.get backend_data_ s ⟨keys.map GetRequest.mk, w⟩).2.replies
        = w ++ keys.map (fun k => GetReply.mk (valueFor backend_data_ s k)) := by
    intro w
    simp [KeyValueStoreImpl.get, KeyValueStoreImpl.get_loop_eq, List.map_map, Function.comp_def]
  refine ⟨rfl, hloop written, ?_, ?_, ?_⟩
  · rw [hloop written]; simp
  · intro i
    rw [hloop []]
    simp only [List.nil_append, List.map_map, List.getElem?_map]
    cases keys[i]? <;> simp [valueFor]
  · unfold BackendClient.SendGetRequest
    have hw : BackendClient.SendGetRequest.writer keys = keys.map GetRequest.mk := rfl
    simp only [KeyValueStoreImpl.stub, hw, hloop [], List.nil_append,
      BackendClient.SendGetRequest.reader_some, List.map_map, Function.comp_def]
    rfl

/-- C5: for every store, store state and non-null delete request,
`KeyValueStoreImpl::deletekey` returns status OK exactly when `DeleteKey` of the
store reports success, returns a status of code NOT_FOUND otherwise, so never
any other code; and `BackendClient::SendDeleteKeyRequest` returns `true` exactly
when the status it gets back is OK. -/
theorem deletekey_ok_iff_deleted {σ : Type} (backend_data_ : BackendDataStructure σ) (s : σ)
    (request : DeleteRequest) :
    ((KeyValueStoreImpl.deletekey backend_data_ s (some request)).1 = grpc.Status.OK
        ↔ (backend_data_.DeleteKey s request.key).1 = true)
    ∧ ((KeyValueStoreImpl.deletekey backend_data_ s (some request)).1.error_code
        = if (backend_data_.DeleteKey s request.key).1 = true then grpc.StatusCode.OK
          else grpc.StatusCode.NOT_FOUND)
    ∧ ((BackendClient.SendDeleteKeyRequest (KeyValueStoreImpl.stub backend_data_) s
          request.key).1 = true
        ↔ (KeyValueStoreImpl.deletekey backend_data_ s (some request)).1 = grpc.Status.OK)
    ∧ (∀ (ω : Type) (stub_ : Stub ω) (w : ω),
        (BackendClient.SendDeleteKeyRequest stub_ w request.key).1 = true
          ↔ (stub_.deletekey w ⟨request.key⟩).1.error_code = grpc.StatusCode.OK) := by
  refine ⟨?_, ?_, ?_, ?_⟩
  · unfold KeyValueStoreImpl.deletekey
    by_cases h : (backend_data_.DeleteKey s request.key).1 = true <;>
      simp [h, grpc.Status.OK]
  · unfold KeyValueStoreImpl.deletekey
    by_cases h : (backend_data_.DeleteKey s request.key).1 = true <;>
      simp [h, grpc.Status.OK]
  · unfold BackendClient.SendDeleteKeyRequest KeyValueStoreImpl.stub KeyValueStoreImpl.deletekey
    by_cases h : (backend_data_.DeleteKey s request.key).1 = true <;>
      simp [h, grpc.Status.OK, grpc.Status.ok]
  · intro ω stub_ w
    simp [BackendClient.SendDeleteKeyRequest, grpc.Status.ok]

/-- C10: the one-argument constructor of `backend_client_lib.cc`, given
`"example.com"`, keeps the hostname `"localhost"` and takes the argument as the
port number: the channel targets `localhost:example.com`, not
`example.com:50000` as the header documents. -/
theorem one_argument_constructor_sets_port :
    BackendClient.BackendClient₁ "example.com"
        = { host_ := "localhost", port_ := "example.com", channel_ := "localhost:example.com" }
    ∧ (BackendClient.BackendClient₁ "example.com").host_ ≠ "example.com"
    ∧ (BackendClient.BackendClient₁ "example.com").port_ ≠ "50000"
    ∧ (BackendClient.BackendClient₁ "example.com").channel_ ≠ "example.com:50000" := by
  refine ⟨?_, ?_, ?_, ?_⟩ <;> decide

/-- C2: whenever a required string argument is empty (the username; the text
for `Chirp`; the followee for `Follow`), `command_tool::Register`,
`command_tool::Chirp` and `command_tool::Follow` return
`ServiceClient::INVALID_ARGUMENT`, send no request through the service client
and leave the state behind it as it was, whatever the service client is. -/
theorem empty_argument_is_rejected_locally {ω : Type} (service_client : ServiceClient ω)
    (usage : String) (w : World ω) (username text to_follow : String) (parent_id : Nat) :
    (username = "" →
      (command_tool.Register service_client usage w username).1
          = ServiceClient.ReturnCodes.INVALID_ARGUMENT
        ∧ (command_tool.Register service_client usage w username).2.sent = w.sent
        ∧ (command_tool.Register service_client usage w username).2.service = w.service)
    ∧ (username = "" ∨ text = "" →
      (command_tool.Chirp service_client usage w username text parent_id).1
          = ServiceClient.ReturnCodes.INVALID_ARGUMENT
        ∧ (command_tool.Chirp service_client usage w username text parent_id).2.sent = w.sent
        ∧ (command_tool.Chirp service_client usage w username text parent_id).2.service
            = w.service)
    ∧ (username = "" ∨ to_follow = "" →
      (command_tool.Follow service_client usage w username to_follow).1
          = ServiceClient.ReturnCodes.INVALID_ARGUMENT
        ∧ (command_tool.Follow service_client usage w username to_follow).2.sent = w.sent
        ∧ (command_tool.Follow service_client usage w username to_follow).2.service
            = w.service) := by
  have hempty : ("" : String).isEmpty = true := by decide
  refine ⟨?_, ?_, ?_⟩
  · intro h
    subst h
    simp [command_tool.Register, hempty, World.print]
  · intro h
    by_cases hu : username.isEmpty = true
    · simp [command_tool.Chirp, hu, World.print]
    · rcases h with h | h
      · subst h; exact absurd hempty hu
      · subst h
        simp [command_tool.Chirp, hu, hempty, World.print]
  · intro h
    by_cases hu : username.isEmpty = true
    · simp [command_tool.Follow, hu, World.print]
    · rcases h with h | h
      · subst h; exact absurd hempty hu
      · subst h
        simp [command_tool.Follow, hu, hempty, World.print]

theorem Forest.preorder_eq_listing_fst (f : Forest) (d : Nat) :
    (f.listing d).map Prod.fst = f.preorder := by
  induction f generalizing d with
  | nil => rfl
  | node c ch sib ihc ihs => simp [Forest.listing, Forest.preorder, ihc, ihs]

theorem Out.calls_append (a b : List Out) : Out.calls (a ++ b) = Out.calls a ++ Out.calls b := by
  induction a with
  | nil => rfl
  | cons x xs ih => cases x <;> simp [Out.calls, ih]

theorem Out.calls_render (l : List (ServiceClient.Chirp × Nat)) :
    Out.calls (command_tool.PrintChirps.render l) = l := by
  induction l with
  | nil => rfl
  | cons x xs ih =>
    have h : command_tool.PrintChirps.render (x :: xs)
        = [Out.PrintSingleChirp x.1 x.2, command_tool.separator]
          ++ command_tool.PrintChirps.render xs := by
      simp [command_tool.PrintChirps.render, List.flatMap_cons]
    rw [h, Out.calls_append, ih]
    simp [Out.calls, command_tool.separator]

theorem command_tool.PrintChirps.render_append (a b : List (ServiceClient.Chirp × Nat)) :
    command_tool.PrintChirps.render (a ++ b)
      = command_tool.PrintChirps.render a ++ command_tool.PrintChirps.render b := by
  simp [command_tool.PrintChirps.render, List.flatMap_append]

theorem command_tool.PrintChirps.pop_append (p : Nat) (X rest : List Nat) (hX : p ∉ X) :
    command_tool.PrintChirps.pop p (X ++ p :: rest) = p :: rest := by
  induction X with
  | nil => simp [command_tool.PrintChirps.pop]
  | cons x xs ih =>
    have hx : x ≠ p := fun h => hX (by simp [h])
    have hxs : p ∉ xs := fun h => hX (by simp [h])
    simp [command_tool.PrintChirps.pop, hx, ih hxs]

theorem command_tool.PrintChirps.loop_append (a b : List ServiceClient.Chirp) (dfs : List Nat)
    (cout : List Out) :
    command_tool.PrintChirps.loop (a ++ b) dfs cout
      = command_tool.PrintChirps.loop b (command_tool.PrintChirps.loop a dfs cout).1
          (command_tool.PrintChirps.loop a dfs cout).2 := by
  induction a generalizing dfs cout with
  | nil => rfl
  | cons c cs ih =>
    show command_tool.PrintChirps.loop (c :: (cs ++ b)) dfs cout = _
    simp only [command_tool.PrintChirps.loop]
    exact ih _ _

/-- The loop of `PrintChirps` over the pre-order listing of a forest of replies
to `p`, entered with `p` on the stack under ids `X` other than `p`: every chirp
is printed with its reply depth, counted from the height of `p` in the stack, and
the loop ends with `p` still on the stack, at the same height. -/
theorem command_tool.PrintChirps.loop_forest (f : Forest) :
    ∀ (p : Nat) (X rest : List Nat) (cout : List Out),
      f.childrenOf p → f.ids.Nodup → p ∉ f.ids → p ∉ X →
      ∃ X', p ∉ X' ∧ (∀ x ∈ X', x ∈ X ∨ x ∈ f.ids) ∧
        command_tool.PrintChirps.loop f.preorder (X ++ p :: rest) cout
          = (X' ++ p :: rest,
              cout ++ command_tool.PrintChirps.render (f.listing (rest.length + 1))) := by
  induction f with
  | nil =>
    intro p X rest cout _ _ _ hX
    exact ⟨X, hX, fun x hx => Or.inl hx, by
      simp [Forest.preorder, Forest.listing, command_tool.PrintChirps.loop,
        command_tool.PrintChirps.render]⟩
  | node c ch sib ihc ihs =>
    intro p X rest cout hwf hnd hp hX
    obtain ⟨hcp, hwc, hws⟩ := hwf
    have hids : (Forest.node c ch sib).ids = c.id :: (ch.ids ++ sib.ids) := by
      simp [Forest.ids, Forest.preorder]
    rw [hids] at hnd hp
    have hnd' := List.nodup_cons.mp hnd
    have happ := List.nodup_append.mp hnd'.2
    have hc_ch : c.id ∉ ch.ids := fun h => hnd'.1 (List.mem_append_left _ h)
    have hp_c : p ≠ c.id := fun h => hp (by simp [h])
    have hp_ch : p ∉ ch.ids := fun h => hp (by simp [h])
    have hp_sib : p ∉ sib.ids := fun h => hp (by simp [h])
    obtain ⟨X1, hX1, hX1sub, h1⟩ := ihc c.id [] (p :: rest)
      (cout ++ [Out.PrintSingleChirp c (rest.length + 1), command_tool.separator])
      hwc happ.1 hc_ch (by simp)
    have hpX1 : p ∉ X1 ++ [c.id] := by
      intro h
      rcases List.mem_append.mp h with h | h
      · rcases hX1sub p h with h | h
        · simp at h
        · exact hp_ch h
      · exact hp_c (by simpa using h)
    obtain ⟨X2, hX2, hX2sub, h2⟩ := ihs p (X1 ++ [c.id]) rest
      (cout ++ [Out.PrintSingleChirp c (rest.length + 1), command_tool.separator]
        ++ command_tool.PrintChirps.render (ch.listing ((p :: rest).length + 1)))
      hws happ.2.1 hp_sib hpX1
    refine ⟨X2, hX2, ?_, ?_⟩
    · intro x hx
      rcases hX2sub x hx with h | h
      · rcases List.mem_append.mp h with h | h
        · rcases hX1sub x h with h | h
          · simp at h
          · exact Or.inr (by rw [hids]; simp [h])
        · exact Or.inr (by rw [hids]; simp at h; simp [h])
      · exact Or.inr (by rw [hids]; simp [h])
    · have hpop : command_tool.PrintChirps.pop p (X ++ p :: rest) = p :: rest :=
        command_tool.PrintChirps.pop_append p X rest hX
      have hstep : command_tool.PrintChirps.loop (Forest.node c ch sib).preorder
            (X ++ p :: rest) cout
          = command_tool.PrintChirps.loop (ch.preorder ++ sib.preorder) (c.id :: p :: rest)
              (cout ++ [Out.PrintSingleChirp c (rest.length + 1), command_tool.separator]) := by
        simp [Forest.preorder, command_tool.PrintChirps.loop, hpop, hcp]
      rw [hstep, command_tool.PrintChirps.loop_append]
      have h1' : command_tool.PrintChirps.loop ch.preorder (c.id :: p :: rest)
            (cout ++ [Out.PrintSingleChirp c (rest.length + 1), command_tool.separator])
          = (X1 ++ c.id :: p :: rest,
              cout ++ [Out.PrintSingleChirp c (rest.length + 1), command_tool.separator]
                ++ command_tool.PrintChirps.render (ch.listing ((p :: rest).length + 1))) := by
        simpa using h1
      rw [h1']
      have h2' : command_tool.PrintChirps.loop sib.preorder (X1 ++ c.id :: p :: rest)
            (cout ++ [Out.PrintSingleChirp c (rest.length + 1), command_tool.separator]
              ++ command_tool.PrintChirps.render (ch.listing ((p :: rest).length + 1)))
          = (X2 ++ p :: rest,
              cout ++ [Out.PrintSingleChirp c (rest.length + 1), command_tool.separator]
                ++ command_tool.PrintChirps.render (ch.listing ((p :: rest).length + 1))
                ++ command_tool.PrintChirps.render (sib.listing (rest.length + 1))) := by
        simpa using h2
      simp only [h2']
      simp [Forest.listing, command_tool.PrintChirps.render, List.flatMap_append,
        List.flatMap_cons]

/-- On the pre-order listing of a tree with distinct ids, `PrintChirps` prints
every chirp with its reply depth. -/
theorem command_tool.PrintChirps.printed_tree (root : ServiceClient.Chirp) (replies : Forest)
    (hparent : replies.childrenOf root.id) (hdistinct : (Forest.tree root replies).ids.Nodup) :
    command_tool.PrintChirps.printed (Forest.tree root replies).preorder
      = (Forest.tree root replies).listing 0 := by
  have hids : (Forest.tree root replies).ids = root.id :: replies.ids := by
    simp [Forest.tree, Forest.ids, Forest.preorder]
  rw [hids] at hdistinct
  have hnd := List.nodup_cons.mp hdistinct
  obtain ⟨X, -, -, h⟩ := command_tool.PrintChirps.loop_forest replies root.id [] []
    [command_tool.separator, Out.PrintSingleChirp root 0, command_tool.separator]
    hparent hnd.2 hnd.1 (by simp)
  have hloop : command_tool.PrintChirps.loop (Forest.tree root replies).preorder []
        [command_tool.separator]
      = command_tool.PrintChirps.loop replies.preorder [root.id]
          [command_tool.separator, Out.PrintSingleChirp root 0, command_tool.separator] := by
    simp [Forest.tree, Forest.preorder, command_tool.PrintChirps.loop,
      command_tool.PrintChirps.pop]
  have h' : command_tool.PrintChirps.loop replies.preorder [root.id]
        [command_tool.separator, Out.PrintSingleChirp root 0, command_tool.separator]
      = (X ++ [root.id],
          [command_tool.separator, Out.PrintSingleChirp root 0, command_tool.separator]
            ++ command_tool.PrintChirps.render (replies.listing 1)) := by
    simpa using h
  unfold command_tool.PrintChirps.printed command_tool.PrintChirps
  rw [hloop, h', Out.calls_append, Out.calls_render]
  simp [Out.calls, command_tool.separator, Forest.tree, Forest.listing]

/-- In the listing of a forest of replies to `p`, a chirp is either a root, a
reply to `p` at the depth of the roots, or a reply to a chirp listed before it,
one level deeper than that chirp. -/
theorem Forest.listing_parent (f : Forest) :
    ∀ (p d j : Nat) (c : ServiceClient.Chirp) (k : Nat),
      f.childrenOf p → (f.listing d)[j]? = some (c, k) →
      (c.parent_id = p ∧ k = d) ∨
        ∃ i, i < j ∧ ∃ c' k', (f.listing d)[i]? = some (c', k') ∧ c'.id = c.parent_id
          ∧ k = k' + 1 := by
  induction f with
  | nil => intro p d j c k _ h; simp [Forest.listing] at h
  | node c0 ch sib ihc ihs =>
    intro p d j c k hwf h
    obtain ⟨hcp, hwc, hws⟩ := hwf
    cases j with
    | zero =>
      simp only [Forest.listing, List.getElem?_cons_zero, Option.some.injEq] at h
      obtain ⟨hc, hk⟩ := Prod.mk.inj h
      subst hc hk
      exact Or.inl ⟨hcp, rfl⟩
    | succ j =>
      simp only [Forest.listing, List.getElem?_cons_succ] at h
      by_cases hj : j < (ch.listing (d + 1)).length
      · rw [List.getElem?_append_left hj] at h
        rcases ihc c0.id (d + 1) j c k hwc h with ⟨h1, h2⟩ | ⟨i, hi, c', k', h1, h2, h3⟩
        · exact Or.inr ⟨0, Nat.succ_pos j, c0, d, by simp [Forest.listing], h1.symm, h2⟩
        · refine Or.inr ⟨i + 1, Nat.succ_lt_succ hi, c', k', ?_, h2, h3⟩
          simp only [Forest.listing, List.getElem?_cons_succ]
          rw [List.getElem?_append_left (lt_trans hi hj)]
          exact h1
      · have hle : (ch.listing (d + 1)).length ≤ j := Nat.le_of_not_lt hj
        rw [List.getElem?_append_right hle] at h
        rcases ihs p d (j - (ch.listing (d + 1)).length) c k hws h with
          h1 | ⟨i, hi, c', k', h1, h2, h3⟩
        · exact Or.inl h1
        · refine Or.inr ⟨(ch.listing (d + 1)).length + i + 1, by omega, c', k', ?_, h2, h3⟩
          simp only [Forest.listing, List.getElem?_cons_succ]
          rw [List.getElem?_append_right (Nat.le_add_right _ _)]
          simpa using h1

/-- C3: on the depth-first pre-order listing of a tree of chirps with pairwise
distinct ids, in which every chirp after the first replies to the chirp it is
listed under, `command_tool::PrintChirps` prints the chirps in list order, each
with its reply depth below the first chirp as padding: 0 for the first chirp,
and for every other chirp one more than the padding of its parent, which was
printed before it. For the tree [R, A, D, E, F, B, C] with A, B, C replies to R
and D, E, F replies to A the paddings are [0, 1, 2, 2, 2, 1, 1]. -/
theorem PrintChirps_pads_by_reply_depth :
    (∀ (root : ServiceClient.Chirp) (replies : Forest),
      replies.childrenOf root.id → (Forest.tree root replies).ids.Nodup →
      (command_tool.PrintChirps.printed (Forest.tree root replies).preorder).map Prod.fst
          = (Forest.tree root replies).preorder
        ∧ command_tool.PrintChirps.printed (Forest.tree root replies).preorder
          = (Forest.tree root replies).listing 0
        ∧ (command_tool.PrintChirps.printed (Forest.tree root replies).preorder)[0]?
          = some (root, 0)
        ∧ ∀ (j : Nat) (c : ServiceClient.Chirp) (k : Nat), 0 < j →
            (command_tool.PrintChirps.printed (Forest.tree root replies).preorder)[j]?
              = some (c, k) →
            ∃ i, i < j ∧ ∃ c' k',
              (command_tool.PrintChirps.printed (Forest.tree root replies).preorder)[i]?
                = some (c', k')
              ∧ c'.id = c.parent_id ∧ k = k' + 1)
    ∧ (∀ R A B C D E F : ServiceClient.Chirp,
      A.parent_id = R.id → B.parent_id = R.id → C.parent_id = R.id →
      D.parent_id = A.id → E.parent_id = A.id → F.parent_id = A.id →
      [R.id, A.id, D.id, E.id, F.id, B.id, C.id].Nodup →
      command_tool.PrintChirps.printed [R, A, D, E, F, B, C]
        = [(R, 0), (A, 1), (D, 2), (E, 2), (F, 2), (B, 1), (C, 1)]) := by
  constructor
  · intro root replies hparent hdistinct
    have hp := command_tool.PrintChirps.printed_tree root replies hparent hdistinct
    refine ⟨?_, hp, ?_, ?_⟩
    · rw [hp, Forest.preorder_eq_listing_fst]
    · rw [hp]; simp [Forest.tree, Forest.listing]
    · intro j c k hj h
      rw [hp] at h ⊢
      cases j with
      | zero => exact absurd hj (lt_irrefl 0)
      | succ j =>
        simp only [Forest.tree, Forest.listing, List.append_nil, List.getElem?_cons_succ] at h
        rcases Forest.listing_parent replies root.id 1 j c k hparent h with
          ⟨h1, h2⟩ | ⟨i, hi, c', k', h1, h2, h3⟩
        · exact ⟨0, Nat.succ_pos j, root, 0, by simp [Forest.tree, Forest.listing], h1.symm,
            h2⟩
        · refine ⟨i + 1, Nat.succ_lt_succ hi, c', k', ?_, h2, h3⟩
          simpa [Forest.tree, Forest.listing] using h1
  · intro R A B C D E F hA hB hC hD hE hF hnd
    have h := command_tool.PrintChirps.printed_tree R
      (Forest.node A
        (Forest.node D Forest.nil (Forest.node E Forest.nil (Forest.node F Forest.nil Forest.nil)))
        (Forest.node B Forest.nil (Forest.node C Forest.nil Forest.nil)))
      (by simp [Forest.childrenOf, hA, hB, hC, hD, hE, hF])
      (by simpa [Forest.tree, Forest.ids, Forest.preorder] using hnd)
    simpa [Forest.tree, Forest.preorder, Forest.listing] using h

/-- C3 at the tree of the `Read` test: chirps 2, 3, 4 reply to chirp 1 and
chirps 5, 6, 7 reply to chirp 2. -/
theorem PrintChirps_pads_by_reply_depth_witness :
    sampleReplies.childrenOf (sampleChirp 1 0).id
    ∧ (Forest.tree (sampleChirp 1 0) sampleReplies).ids.Nodup
    ∧ (Forest.tree (sampleChirp 1 0) sampleReplies).preorder
        = [sampleChirp 1 0, sampleChirp 2 1, sampleChirp 5 2, sampleChirp 6 2, sampleChirp 7 2,
            sampleChirp 3 1, sampleChirp 4 1]
    ∧ command_tool.PrintChirps.printed (Forest.tree (sampleChirp 1 0) sampleReplies).preorder
        = (Forest.tree (sampleChirp 1 0) sampleReplies).listing 0
    ∧ (command_tool.PrintChirps.printed
          [sampleChirp 1 0, sampleChirp 2 1, sampleChirp 5 2, sampleChirp 6 2, sampleChirp 7 2,
            sampleChirp 3 1, sampleChirp 4 1]).map Prod.snd
        = [0, 1, 2, 2, 2, 1, 1] :=
  ⟨by decide, by decide, by decide,
    (PrintChirps_pads_by_reply_depth.1 (sampleChirp 1 0) sampleReplies
      (by decide) (by decide)).2.1,
    by
      rw [PrintChirps_pads_by_reply_depth.2 (sampleChirp 1 0) (sampleChirp 2 1) (sampleChirp 3 1)
        (sampleChirp 4 1) (sampleChirp 5 2) (sampleChirp 6 2) (sampleChirp 7 2)
        rfl rfl rfl rfl rfl rfl (by decide)]
      rfl⟩

/-- C2 at the empty username, the empty text and the empty followee, against a
service client that counts the requests it receives: nothing is sent and the
counter stays at 0. -/
theorem empty_argument_is_rejected_locally_witness :
    ((command_tool.Register ServiceClient.counting "usage" World.start "").1
        = ServiceClient.ReturnCodes.INVALID_ARGUMENT
      ∧ (command_tool.Register ServiceClient.counting "usage" World.start "").2.sent = []
      ∧ (command_tool.Register ServiceClient.counting "usage" World.start "").2.service = 0)
    ∧ ((command_tool.Chirp ServiceClient.counting "usage" World.start "u" "" 0).1
        = ServiceClient.ReturnCodes.INVALID_ARGUMENT
      ∧ (command_tool.Chirp ServiceClient.counting "usage" World.start "u" "" 0).2.sent = []
      ∧ (command_tool.Chirp ServiceClient.counting "usage" World.start "u" "" 0).2.service = 0)
    ∧ ((command_tool.Follow ServiceClient.counting "usage" World.start "u" "").1
        = ServiceClient.ReturnCodes.INVALID_ARGUMENT
      ∧ (command_tool.Follow ServiceClient.counting "usage" World.start "u" "").2.sent = []
      ∧ (command_tool.Follow ServiceClient.counting "usage" World.start "u" "").2.service = 0)
    ∧ (command_tool.Register ServiceClient.counting "usage" World.start "u").2.sent
        = [Request.RegisterUser "u"]
    ∧ (command_tool.Register ServiceClient.counting "usage" World.start "u").2.service = 1 :=
  ⟨(empty_argument_is_rejected_locally ServiceClient.counting "usage" World.start
      "" "" "" 0).1 rfl,
    (empty_argument_is_rejected_locally ServiceClient.counting "usage" World.start
      "u" "" "" 0).2.1 (Or.inr rfl),
    (empty_argument_is_rejected_locally ServiceClient.counting "usage" World.start
      "u" "" "" 0).2.2 (Or.inr rfl),
    by decide, by decide⟩

/-- C6: `Read` of chirp 1 after chirp 2, a reply to 1, was removed, with chirp 3
a reply to 2 and chirp 4 a reply to 1, lists chirps 1, 3, 4. `PrintChirps`
prints all three with padding 0: chirp 4 gets the padding of its parent, chirp
1, which is listed before it, not one more. -/
theorem PrintChirps_orphan_resets_padding :
    (ServiceDataStructure.init.run orphanTestOps).Read 1
        = Except.ok [⟨1, "u", "short", 0, 0, false⟩, ⟨3, "u", "short", 0, 2, false⟩,
            ⟨4, "u", "short", 0, 1, false⟩]
    ∧ ((ServiceDataStructure.init.run orphanTestOps).thread 1).map Service.ChirpRecord.toChirp
        = [sampleChirp 1 0, sampleChirp 3 2, sampleChirp 4 1]
    ∧ command_tool.PrintChirps.printed [sampleChirp 1 0, sampleChirp 3 2, sampleChirp 4 1]
        = [(sampleChirp 1 0, 0), (sampleChirp 3 2, 0), (sampleChirp 4 1, 0)]
    ∧ (sampleChirp 4 1).parent_id = (sampleChirp 1 0).id
    ∧ ¬ ∀ (i j : Nat) (parent child : ServiceClient.Chirp) (k k' : Nat), i < j →
        (command_tool.PrintChirps.printed
          [sampleChirp 1 0, sampleChirp 3 2, sampleChirp 4 1])[i]? = some (parent, k) →
        (command_tool.PrintChirps.printed
          [sampleChirp 1 0, sampleChirp 3 2, sampleChirp 4 1])[j]? = some (child, k') →
        child.parent_id = parent.id → k' = k + 1 := by
  have h : command_tool.PrintChirps.printed [sampleChirp 1 0, sampleChirp 3 2, sampleChirp 4 1]
      = [(sampleChirp 1 0, 0), (sampleChirp 3 2, 0), (sampleChirp 4 1, 0)] := by decide
  refine ⟨rfl, by decide, h, rfl, ?_⟩
  intro hall
  have := hall 0 2 (sampleChirp 1 0) (sampleChirp 4 1) 0 0 (by decide) (by rw [h]; rfl)
    (by rw [h]; rfl) rfl
  exact absurd this (by decide)

/-! ### The service data structure: invariant -/

theorem ServiceDataStructure.lookup_id (s : ServiceDataStructure) (x : Nat)
    (c : Service.ChirpRecord) (h : s.lookup x = some c) : c.id = x ∧ c ∈ s.chirps := by
  unfold ServiceDataStructure.lookup at h
  exact ⟨by simpa using List.find?_some h, List.mem_of_find?_eq_some h⟩

theorem ServiceDataStructure.ReadChirp_eq_some (s : ServiceDataStructure) (x : Nat)
    (c : Service.ChirpRecord) :
    s.ReadChirp x = some c ↔ s.lookup x = some c ∧ c.removed = false := by
  unfold ServiceDataStructure.ReadChirp
  cases h : s.lookup x with
  | none => simp [Option.filter]
  | some r =>
    cases hr : r.removed with
    | true =>
      simp only [Option.filter, hr, Bool.not_true, Bool.false_eq_true, if_false,
        Option.some.injEq]
      constructor
      · intro h1; exact absurd h1 (by simp)
      · rintro ⟨h1, h2⟩
        rw [← h1, hr] at h2
        exact absurd h2 (by decide)
    | false =>
      simp only [Option.filter, hr, Bool.not_false, if_true, Option.some.injEq]
      constructor
      · intro h1; exact ⟨h1, h1 ▸ hr⟩
      · intro h1; exact h1.1

theorem ServiceDataStructure.ReadChirp_id (s : ServiceDataStructure) (x : Nat)
    (c : Service.ChirpRecord) (h : s.ReadChirp x = some c) :
    c.id = x ∧ c ∈ s.chirps ∧ c.removed = false := by
  have h' := (s.ReadChirp_eq_some x c).mp h
  exact ⟨(s.lookup_id x c h'.1).1, (s.lookup_id x c h'.1).2, h'.2⟩

/-- Looking up an id after every record went through a function that keeps
ids. -/
theorem ServiceDataStructure.lookup_map (s : ServiceDataStructure)
    (f : Service.ChirpRecord → Service.ChirpRecord) (hid : ∀ c, (f c).id = c.id) (x : Nat) :
    ServiceDataStructure.lookup { s with chirps := s.chirps.map f } x = (s.lookup x).map f := by
  unfold ServiceDataStructure.lookup
  rw [List.find?_map]
  congr 2
  funext c
  simp [hid]

theorem ServiceDataStructure.WellFormed.of_map {s : ServiceDataStructure}
    (h : s.WellFormed) (f : Service.ChirpRecord → Service.ChirpRecord)
    (hid : ∀ c, (f c).id = c.id) (hpar : ∀ c, (f c).parent_id = c.parent_id) :
    ServiceDataStructure.WellFormed { s with chirps := s.chirps.map f } := by
  constructor
  · intro c hc
    obtain ⟨c0, hc0, rfl⟩ := List.mem_map.mp hc
    rw [hid, hpar]
    exact h.1 c0 hc0
  · have : (s.chirps.map f).map Service.ChirpRecord.id = s.chirps.map Service.ChirpRecord.id := by
      rw [List.map_map]
      exact List.map_congr_left fun c _ => hid c
    show ((s.chirps.map f).map Service.ChirpRecord.id).Pairwise _
    rw [this]
    exact h.2

theorem ServiceDataStructure.WellFormed.of_PostChirp {s : ServiceDataStructure} (h : s.WellFormed)
    (author text : String) (parent_id now : Nat) (r : Service.ChirpRecord × ServiceDataStructure)
    (hr : s.PostChirp author text parent_id now = Except.ok r) : r.2.WellFormed := by
  unfold ServiceDataStructure.PostChirp at hr
  split_ifs at hr with h1 h2
  simp only [Except.ok.injEq] at hr
  subst hr
  constructor
  · intro c hc
    rcases List.mem_append.mp hc with hc | hc
    · have := h.1 c hc
      exact ⟨this.1, Nat.le_succ_of_le this.2.1, this.2.2⟩
    · have hc' : c = _ := List.mem_singleton.mp hc
      subst hc'
      refine ⟨Nat.succ_pos _, le_refl _, ?_⟩
      show parent_id < s.counter + 1
      by_cases hp : parent_id = 0
      · omega
      · have hl : s.lookup parent_id ≠ none := fun hn => h2 ⟨hp, hn⟩
        obtain ⟨r, hr⟩ := Option.ne_none_iff_exists'.mp hl
        have := s.lookup_id parent_id r hr
        have hb := h.1 r this.2
        omega
  · show ((s.chirps ++ [_]).map Service.ChirpRecord.id).Pairwise _
    rw [List.map_append, List.pairwise_append]
    refine ⟨h.2, by simp, ?_⟩
    intro a ha b hb
    obtain ⟨c, hc, rfl⟩ := List.mem_map.mp ha
    have hb' : b = s.counter + 1 := by simpa using hb
    have := h.1 c hc
    omega

theorem ServiceDataStructure.WellFormed.of_step {s : ServiceDataStructure} (h : s.WellFormed)
    (op : Service.Op) : (s.step op).WellFormed := by
  cases op with
  | UserRegister u =>
    show (s.UserRegister u).2.WellFormed
    unfold ServiceDataStructure.UserRegister
    split <;> exact h
  | UserLogin u =>
    show (s.UserLogin u).2.WellFormed
    unfold ServiceDataStructure.UserLogin
    split <;> exact h
  | Follow a b =>
    simp only [ServiceDataStructure.step]
    cases hf : s.Follow a b with
    | error e => exact h
    | ok s' =>
      unfold ServiceDataStructure.Follow at hf
      split_ifs at hf
      simp only [Except.ok.injEq] at hf
      subst hf
      exact h
  | EditChirp id text =>
    show (s.EditChirp id text).2.WellFormed
    unfold ServiceDataStructure.EditChirp
    split
    · exact h
    · exact h.of_map _ (fun c => by split <;> rfl) (fun c => by split <;> rfl)
  | DeleteChirp id =>
    show (s.DeleteChirp id).2.WellFormed
    unfold ServiceDataStructure.DeleteChirp
    split
    · exact h
    · exact h.of_map _ (fun c => by split <;> rfl) (fun c => by split <;> rfl)
  | PostChirp author text parent_id now =>
    simp only [ServiceDataStructure.step]
    cases hp : s.PostChirp author text parent_id now with
    | error e => exact h
    | ok r => exact h.of_PostChirp author text parent_id now r hp

theorem ServiceDataStructure.WellFormed.of_run {s : ServiceDataStructure} (h : s.WellFormed)
    (ops : List Service.Op) : (s.run ops).WellFormed := by
  induction ops generalizing s with
  | nil => exact h
  | cons op ops ih => exact ih (h.of_step op)

theorem ServiceDataStructure.WellFormed.of_init : ServiceDataStructure.init.WellFormed := by
  constructor
  · intro c hc; simp [ServiceDataStructure.init] at hc
  · simp [ServiceDataStructure.init]

/-! ### The service data structure: deletion -/

theorem ServiceDataStructure.DeleteChirp_eq (s : ServiceDataStructure) (x : Nat) :
    s.DeleteChirp x
      = if (s.ReadChirp x).isSome then
          (true, { s with chirps := s.chirps.map (Service.ChirpRecord.tombstone x) })
        else (false, s) := by
  unfold ServiceDataStructure.DeleteChirp
  cases s.ReadChirp x <;> rfl

theorem Service.ChirpRecord.tombstone_id (x : Nat) (c : Service.ChirpRecord) :
    (c.tombstone x).id = c.id := by
  unfold Service.ChirpRecord.tombstone; split <;> rfl

/-- What a call does to the record stored under an id: the record stays, a
tombstone stays, and only `DeleteChirp` of that id sets one. -/
theorem ServiceDataStructure.lookup_step (s : ServiceDataStructure) (op : Service.Op) (x : Nat)
    (c : Service.ChirpRecord) (h : s.lookup x = some c) :
    ∃ c', (s.step op).lookup x = some c' ∧ (c.removed = true → c'.removed = true)
      ∧ (op ≠ Service.Op.DeleteChirp x → c'.removed = c.removed) := by
  have hcid := (s.lookup_id x c h).1
  cases op with
  | UserRegister u =>
    refine ⟨c, ?_, id, fun _ => rfl⟩
    show ServiceDataStructure.lookup (s.UserRegister u).2 x = some c
    unfold ServiceDataStructure.UserRegister
    split <;> exact h
  | UserLogin u =>
    refine ⟨c, ?_, id, fun _ => rfl⟩
    show ServiceDataStructure.lookup (s.UserLogin u).2 x = some c
    unfold ServiceDataStructure.UserLogin
    split <;> exact h
  | Follow a b =>
    refine ⟨c, ?_, id, fun _ => rfl⟩
    simp only [ServiceDataStructure.step]
    cases hf : s.Follow a b with
    | error e => exact h
    | ok s' =>
      unfold ServiceDataStructure.Follow at hf
      split_ifs at hf
      simp only [Except.ok.injEq] at hf
      subst hf
      exact h
  | PostChirp author text parent_id now =>
    refine ⟨c, ?_, id, fun _ => rfl⟩
    simp only [ServiceDataStructure.step]
    cases hp : s.PostChirp author text parent_id now with
    | error e => exact h
    | ok r =>
      unfold ServiceDataStructure.PostChirp at hp
      split_ifs at hp
      simp only [Except.ok.injEq] at hp
      subst hp
      unfold ServiceDataStructure.lookup at h ⊢
      simp only [List.find?_append, h, Option.or_some]
  | EditChirp id text =>
    show ∃ c', ServiceDataStructure.lookup (s.EditChirp id text).2 x = some c' ∧ _
    unfold ServiceDataStructure.EditChirp
    split
    · exact ⟨c, h, fun hc => hc, fun _ => rfl⟩
    · dsimp only
      rw [s.lookup_map _ (fun c => by split <;> rfl) x, h]
      refine ⟨_, rfl, ?_, ?_⟩
      · intro hc; dsimp only; split <;> exact hc
      · intro _; dsimp only; split <;> rfl
  | DeleteChirp id =>
    show ∃ c', ServiceDataStructure.lookup (s.DeleteChirp id).2 x = some c' ∧ _
    rw [s.DeleteChirp_eq id]
    split
    · dsimp only
      rw [s.lookup_map _ (Service.ChirpRecord.tombstone_id id) x, h]
      refine ⟨_, rfl, ?_, ?_⟩
      · intro hc; unfold Service.ChirpRecord.tombstone; split
        · rfl
        · exact hc
      · intro hne
        have hid : id ≠ x := fun e => hne (by rw [e])
        unfold Service.ChirpRecord.tombstone
        rw [if_neg (by rw [hcid]; exact fun e => hid e.symm)]
    · exact ⟨c, h, fun hc => hc, fun _ => rfl⟩

theorem ServiceDataStructure.Tombstoned.after_run {s : ServiceDataStructure} {x : Nat}
    (h : s.Tombstoned x) (ops : List Service.Op) : (s.run ops).Tombstoned x := by
  induction ops generalizing s with
  | nil => exact h
  | cons op ops ih =>
    obtain ⟨c, hc, hr⟩ := h
    obtain ⟨c', hc', hkeep, -⟩ := s.lookup_step op x c hc
    exact ih ⟨c', hc', hkeep hr⟩

theorem ServiceDataStructure.Tombstoned.DeleteChirp_fails {s : ServiceDataStructure} {x : Nat}
    (h : s.Tombstoned x) : s.DeleteChirp x = (false, s) := by
  obtain ⟨c, hc, hr⟩ := h
  have : s.ReadChirp x = none := by
    cases hread : s.ReadChirp x with
    | none => rfl
    | some r =>
      have := (s.ReadChirp_eq_some x r).mp hread
      rw [hc] at this
      have h1 : c = r := Option.some.inj this.1
      rw [← h1, hr] at this
      exact absurd this.2 (by decide)
  rw [s.DeleteChirp_eq x, this]
  rfl

/-- A chirp that can be read stays readable through calls other than its own
`DeleteChirp`. -/
theorem ServiceDataStructure.ReadChirp_isSome_run (s : ServiceDataStructure) (x : Nat)
    (ops : List Service.Op) (h : (s.ReadChirp x).isSome = true)
    (hops : ∀ op ∈ ops, op ≠ Service.Op.DeleteChirp x) :
    ((s.run ops).ReadChirp x).isSome = true := by
  induction ops generalizing s with
  | nil => exact h
  | cons op ops ih =>
    apply ih (s.step op)
    · obtain ⟨c, hc⟩ := Option.isSome_iff_exists.mp h
      have hc' := (s.ReadChirp_eq_some x c).mp hc
      obtain ⟨c', h1, -, h3⟩ := s.lookup_step op x c hc'.1
      have h4 := h3 (hops op (List.mem_cons_self _ _))
      have : (s.step op).ReadChirp x = some c' :=
        ((s.step op).ReadChirp_eq_some x c').mpr ⟨h1, by rw [h4]; exact hc'.2⟩
      rw [this]; rfl
    · intro op' hop'
      exact hops op' (List.mem_cons_of_mem _ hop')

/-- In a well-formed state the chirp just posted can be read under its id. -/
theorem ServiceDataStructure.PostChirp_readable {s : ServiceDataStructure} (h : s.WellFormed)
    (author text : String) (parent_id now : Nat) (r : Service.ChirpRecord × ServiceDataStructure)
    (hr : s.PostChirp author text parent_id now = Except.ok r) :
    r.2.ReadChirp r.1.id = some r.1 := by
  unfold ServiceDataStructure.PostChirp at hr
  split_ifs at hr
  simp only [Except.ok.injEq] at hr
  subst hr
  rw [ServiceDataStructure.ReadChirp_eq_some]
  refine ⟨?_, rfl⟩
  unfold ServiceDataStructure.lookup
  have hnone : s.chirps.find? (fun c => decide (c.id = s.counter + 1)) = none := by
    rw [List.find?_eq_none]
    intro c hc
    have := h.1 c hc
    simp only [decide_eq_true_eq]
    omega
  simp [List.find?_append, hnone]

theorem ServiceDataStructure.DeleteChirp_tombstones (s : ServiceDataStructure) (x : Nat)
    (h : (s.ReadChirp x).isSome = true) :
    (s.DeleteChirp x).1 = true ∧ (s.DeleteChirp x).2.Tombstoned x := by
  rw [s.DeleteChirp_eq x, if_pos h]
  refine ⟨rfl, ?_⟩
  obtain ⟨c, hc⟩ := Option.isSome_iff_exists.mp h
  have hc' := (s.ReadChirp_eq_some x c).mp hc
  refine ⟨c.tombstone x, ?_, ?_⟩
  · dsimp only
    rw [s.lookup_map _ (Service.ChirpRecord.tombstone_id x) x, hc'.1]
    rfl
  · unfold Service.ChirpRecord.tombstone
    rw [if_pos (s.lookup_id x c hc'.1).1]

theorem ServiceDataStructure.DeleteChirp_ReadChirp_other (s : ServiceDataStructure) (x y : Nat)
    (hy : y ≠ x) : (s.DeleteChirp x).2.ReadChirp y = s.ReadChirp y := by
  rw [s.DeleteChirp_eq x]
  split
  · dsimp only
    unfold ServiceDataStructure.ReadChirp
    rw [s.lookup_map _ (Service.ChirpRecord.tombstone_id x) y]
    cases hl : s.lookup y with
    | none => rfl
    | some c =>
      have hcy := (s.lookup_id y c hl).1
      have : c.tombstone x = c := by
        unfold Service.ChirpRecord.tombstone
        rw [if_neg (by rw [hcy]; exact hy)]
      simp only [Option.map_some', this]
  · rfl

theorem ServiceDataStructure.DeleteChirp_chirpList (s : ServiceDataStructure) (x : Nat)
    (u : String) (h : (s.ReadChirp x).isSome = true) :
    (s.DeleteChirp x).2.SessionGetUserChirpList u
      = (s.SessionGetUserChirpList u).filter fun id => decide (id ≠ x) := by
  rw [s.DeleteChirp_eq x, if_pos h]
  unfold ServiceDataStructure.SessionGetUserChirpList
  dsimp only
  generalize s.chirps = l
  induction l with
  | nil => rfl
  | cons c cs ih =>
    by_cases hc : c.id = x
    · have ht : c.tombstone x = { c with removed := true } := by
        unfold Service.ChirpRecord.tombstone; rw [if_pos hc]
      by_cases hk : (decide (c.username = u) && !c.removed) = true
      · simp [List.filter_cons, ht, hk, hc, ih]
      · simp [List.filter_cons, ht, hk, ih]
    · have ht : c.tombstone x = c := by
        unfold Service.ChirpRecord.tombstone; rw [if_neg hc]
      by_cases hk : (decide (c.username = u) && !c.removed) = true
      · simp [List.filter_cons, ht, hk, hc, ih]
      · simp [List.filter_cons, ht, hk, ih]

/-! ### The service data structure: reading a thread -/

theorem ServiceDataStructure.mem_children (s : ServiceDataStructure) (x y : Nat) :
    y ∈ s.children x ↔ ∃ c ∈ s.chirps, c.id = y ∧ c.parent_id = x := by
  unfold ServiceDataStructure.children
  simp only [List.mem_map, List.mem_filter, decide_eq_true_eq]
  constructor
  · rintro ⟨c, ⟨hc, hp⟩, hy⟩; exact ⟨c, hc, hy, hp⟩
  · rintro ⟨c, hc, hy, hp⟩; exact ⟨c, ⟨hc, hp⟩, hy⟩

theorem ServiceDataStructure.WellFormed.children_sorted {s : ServiceDataStructure}
    (h : s.WellFormed) (x : Nat) : (s.children x).Pairwise (· < ·) :=
  List.Pairwise.sublist ((List.filter_sublist _).map _) h.2

theorem ServiceDataStructure.WellFormed.id_inj {s : ServiceDataStructure} (h : s.WellFormed)
    (c c' : Service.ChirpRecord) (hc : c ∈ s.chirps) (hc' : c' ∈ s.chirps)
    (hid : c.id = c'.id) :
    c = c' :=
  List.inj_on_of_nodup_map (h.2.imp fun hlt => ne_of_lt hlt) hc hc' hid

/-- One more unit of fuel changes nothing once the fuel covers the ids from `x`
to the counter. -/
theorem ServiceDataStructure.WellFormed.subtree_succ {s : ServiceDataStructure}
    (h : s.WellFormed) :
    ∀ (fuel x : Nat), s.counter + 1 - x ≤ fuel →
      s.subtree (fuel + 1) x = s.subtree fuel x := by
  intro fuel
  induction fuel with
  | zero =>
    intro x hx
    have hread : s.ReadChirp x = none := by
      cases hr : s.ReadChirp x with
      | none => rfl
      | some c =>
        have := s.ReadChirp_id x c hr
        have hb := h.1 c this.2.1
        omega
    have hch : s.children x = [] := by
      rw [List.eq_nil_iff_forall_not_mem]
      intro y hy
      obtain ⟨c, hc, -, hp⟩ := (s.mem_children x y).mp hy
      have hb := h.1 c hc
      omega
    simp [ServiceDataStructure.subtree, hread, hch]
  | succ fuel ih =>
    intro x hx
    show (s.ReadChirp x).toList ++ (s.children x).flatMap (s.subtree (fuel + 1))
      = (s.ReadChirp x).toList ++ (s.children x).flatMap (s.subtree fuel)
    congr 1
    apply List.flatMap_congr
    intro y hy
    obtain ⟨c, hc, hid, hp⟩ := (s.mem_children x y).mp hy
    have hb := h.1 c hc
    exact ih y (by omega)

/-- The list `Read` returns is the pre-order of the thread: the chirp itself when
it is present, then the lists of its direct replies, one after the other. -/
theorem ServiceDataStructure.WellFormed.thread_eq {s : ServiceDataStructure} (h : s.WellFormed)
    (x : Nat) : s.thread x = (s.ReadChirp x).toList ++ (s.children x).flatMap s.thread := by
  show (s.ReadChirp x).toList ++ (s.children x).flatMap (s.subtree s.counter)
    = (s.ReadChirp x).toList ++ (s.children x).flatMap (s.subtree (s.counter + 1))
  congr 1
  apply List.flatMap_congr
  intro y hy
  obtain ⟨c, hc, hid, hp⟩ := (s.mem_children x y).mp hy
  have hb := h.1 c hc
  exact (h.subtree_succ s.counter y (by omega)).symm

theorem ServiceDataStructure.Descends.descends_trans {s : ServiceDataStructure} {a b c : Nat}
    (hab : s.Descends a b) (hbc : s.Descends b c) : s.Descends a c := by
  induction hab with
  | self a => exact hbc
  | reply a r b hr hp _ ih => exact ServiceDataStructure.Descends.reply a r c hr hp (ih hbc)

theorem ServiceDataStructure.mem_subtree (s : ServiceDataStructure) :
    ∀ (fuel x : Nat) (c : Service.ChirpRecord), c ∈ s.subtree fuel x →
      s.ReadChirp c.id = some c ∧ s.Descends x c.id := by
  intro fuel
  induction fuel with
  | zero => intro x c hc; simp [ServiceDataStructure.subtree] at hc
  | succ fuel ih =>
    intro x c hc
    simp only [ServiceDataStructure.subtree, List.mem_append, Option.mem_toList,
      Option.mem_def, List.mem_flatMap] at hc
    rcases hc with hc | ⟨y, hy, hc⟩
    · have hid := (s.ReadChirp_id x c hc).1
      rw [hid]
      exact ⟨hc, ServiceDataStructure.Descends.self x⟩
    · obtain ⟨r, hr, hid, hp⟩ := (s.mem_children x y).mp hy
      have := ih y c hc
      refine ⟨this.1, ServiceDataStructure.Descends.reply x r c.id hr hp ?_⟩
      rw [hid]; exact this.2

theorem ServiceDataStructure.WellFormed.mem_thread {s : ServiceDataStructure} (h : s.WellFormed)
    {a b : Nat} (hab : s.Descends a b) :
    ∀ c : Service.ChirpRecord, s.ReadChirp b = some c → c ∈ s.thread a := by
  induction hab with
  | self a =>
    intro c hc
    rw [h.thread_eq a, hc]
    simp
  | reply a r b hr hp _ ih =>
    intro c hc
    rw [h.thread_eq a]
    refine List.mem_append_right _ (List.mem_flatMap.mpr ⟨r.id, ?_, ih c hc⟩)
    exact (s.mem_children a r.id).mpr ⟨r, hr, rfl, hp⟩

theorem ServiceDataStructure.WellFormed.descends_le {s : ServiceDataStructure}
    (h : s.WellFormed) {a b : Nat} (hab : s.Descends a b) : a ≤ b := by
  induction hab with
  | self a => exact le_refl a
  | reply a r b hr hp _ ih =>
    have := h.1 r hr
    omega

/-- The last step of a chain of replies: `b` is `a`, or `b` is a reply to a chirp
at or below `a`. -/
theorem ServiceDataStructure.Descends.last_step {s : ServiceDataStructure} {a b : Nat}
    (hab : s.Descends a b) :
    a = b ∨ ∃ c ∈ s.chirps, c.id = b ∧ s.Descends a c.parent_id := by
  induction hab with
  | self a => exact Or.inl rfl
  | reply a r b hr hp _ ih =>
    rcases ih with ih | ⟨c, hc, hid, hd⟩
    · refine Or.inr ⟨r, hr, ih, ?_⟩
      rw [hp]; exact ServiceDataStructure.Descends.self a
    · exact Or.inr ⟨c, hc, hid, ServiceDataStructure.Descends.reply a r _ hr hp hd⟩

/-- Two chirps above the same chirp are one above the other. -/
theorem ServiceDataStructure.WellFormed.descends_linear {s : ServiceDataStructure}
    (h : s.WellFormed) :
    ∀ (b a a' : Nat), s.Descends a b → s.Descends a' b →
      s.Descends a a' ∨ s.Descends a' a := by
  intro b
  induction b using Nat.strong_induction_on with
  | _ b ih =>
    intro a a' hab hab'
    rcases hab.last_step with rfl | ⟨c, hc, hid, hd⟩
    · exact Or.inr hab'
    · rcases hab'.last_step with rfl | ⟨c', hc', hid', hd'⟩
      · exact Or.inl hab
      · have hcc : c = c' := h.id_inj c c' hc hc' (by rw [hid, hid'])
        subst hcc
        have hlt := (h.1 c hc).2.2
        exact ih c.parent_id (by omega) a a' hd hd'

/-- The lists of two distinct replies to the same chirp share no chirp. -/
theorem ServiceDataStructure.WellFormed.subtree_disjoint {s : ServiceDataStructure}
    (h : s.WellFormed) (fuel x y y' : Nat) (hy : y ∈ s.children x) (hy' : y' ∈ s.children x)
    (hne : y ≠ y') : List.Disjoint (s.subtree fuel y) (s.subtree fuel y') := by
  intro c hc hc'
  have hd := (s.mem_subtree fuel y c hc).2
  have hd' := (s.mem_subtree fuel y' c hc').2
  obtain ⟨r, hr, hid, hp⟩ := (s.mem_children x y).mp hy
  obtain ⟨r', hr', hid', hp'⟩ := (s.mem_children x y').mp hy'
  have key : ∀ (u v : Nat) (ru rv : Service.ChirpRecord), ru ∈ s.chirps → rv ∈ s.chirps →
      ru.id = u → rv.id = v → ru.parent_id = x → rv.parent_id = x → u ≠ v →
      s.Descends u v → False := by
    intro u v ru rv hru hrv hu hv hpu hpv huv hduv
    rcases hduv.last_step with e | ⟨c0, hc0, hid0, hd0⟩
    · exact huv e
    · have : c0 = rv := h.id_inj c0 rv hc0 hrv (by rw [hid0, hv])
      subst this
      rw [hpv] at hd0
      have hle := h.descends_le hd0
      have := (h.1 ru hru).2.2
      omega
  rcases h.descends_linear c.id y y' hd hd' with hl | hl
  · exact key y y' r r' hr hr' hid hid' hp hp' hne hl
  · exact key y' y r' r hr' hr hid' hid hp' hp (fun e => hne e.symm) hl

theorem ServiceDataStructure.WellFormed.subtree_nodup {s : ServiceDataStructure}
    (h : s.WellFormed) : ∀ (fuel x : Nat), (s.subtree fuel x).Nodup := by
  intro fuel
  induction fuel with
  | zero => intro x; simp [ServiceDataStructure.subtree]
  | succ fuel ih =>
    intro x
    simp only [ServiceDataStructure.subtree]
    rw [List.nodup_append]
    refine ⟨?_, ?_, ?_⟩
    · cases s.ReadChirp x <;> simp
    · rw [List.nodup_flatMap]
      refine ⟨fun y _ => ih y, ?_⟩
      refine List.Pairwise.imp_of_mem ?_ (h.children_sorted x)
      intro y y' hy hy' hlt
      exact h.subtree_disjoint fuel x y y' hy hy' (ne_of_lt hlt)
    · intro c hc hc'
      have hcid := (s.ReadChirp_id x c (by simpa using hc)).1
      obtain ⟨y, hy, hcy⟩ := List.mem_flatMap.mp hc'
      obtain ⟨r, hr, hid, hp⟩ := (s.mem_children x y).mp hy
      have hle := h.descends_le (s.mem_subtree fuel y c hcy).2
      have := (h.1 r hr).2.2
      omega

theorem ServiceDataStructure.PostChirp_ok_inv (s : ServiceDataStructure) (author text : String)
    (parent_id now : Nat) (r : Service.ChirpRecord) (s' : ServiceDataStructure)
    (h : s.PostChirp author text parent_id now = Except.ok (r, s')) :
    r = ⟨s.counter + 1, author, text, now, parent_id, false⟩
      ∧ s' = { s with chirps := s.chirps ++ [r], counter := s.counter + 1 } := by
  unfold ServiceDataStructure.PostChirp at h
  split_ifs at h
  simp only [Except.ok.injEq, Prod.mk.injEq] at h
  obtain ⟨h1, h2⟩ := h
  subst h1
  exact ⟨rfl, h2.symm⟩

/-- The thread of the root of the tree of the `Read` test, posted on top of any
well-formed state: the root, its first reply with the three replies to that one,
then its second and third reply. -/
theorem ServiceDataStructure.WellFormed.thread_test_tree {s0 s7 : ServiceDataStructure}
    (h0 : s0.WellFormed) (h7 : s7.WellFormed) (R A B C D E F : Service.ChirpRecord)
    (hR : R.id = s0.counter + 1) (hA : A.id = s0.counter + 2) (hB : B.id = s0.counter + 3)
    (hC : C.id = s0.counter + 4) (hD : D.id = s0.counter + 5) (hE : E.id = s0.counter + 6)
    (hF : F.id = s0.counter + 7)
    (pA : A.parent_id = s0.counter + 1) (pB : B.parent_id = s0.counter + 1)
    (pC : C.parent_id = s0.counter + 1) (pD : D.parent_id = s0.counter + 2)
    (pE : E.parent_id = s0.counter + 2) (pF : F.parent_id = s0.counter + 2)
    (pR : R.parent_id < s0.counter + 1)
    (rR : R.removed = false) (rA : A.removed = false) (rB : B.removed = false)
    (rC : C.removed = false) (rD : D.removed = false) (rE : E.removed = false)
    (rF : F.removed = false)
    (hchirps : s7.chirps = s0.chirps ++ [R, A, B, C, D, E, F]) :
    s7.thread (s0.counter + 1) = [R, A, D, E, F, B, C] := by
  have hold_children : ∀ x, s0.counter < x →
      s0.chirps.filter (fun c => decide (c.parent_id = x)) = [] := by
    intro x hx
    rw [List.filter_eq_nil_iff]
    intro c hc
    have := h0.1 c hc
    simp only [decide_eq_true_eq]
    omega
  have hold_find : ∀ x, s0.counter < x →
      s0.chirps.find? (fun c => decide (c.id = x)) = none := by
    intro x hx
    rw [List.find?_eq_none]
    intro c hc
    have := h0.1 c hc
    simp only [decide_eq_true_eq]
    omega
  have l1 : s0.counter < s0.counter + 1 := by omega
  have l2 : s0.counter < s0.counter + 2 := by omega
  have l3 : s0.counter < s0.counter + 3 := by omega
  have l4 : s0.counter < s0.counter + 4 := by omega
  have l5 : s0.counter < s0.counter + 5 := by omega
  have l6 : s0.counter < s0.counter + 6 := by omega
  have l7 : s0.counter < s0.counter + 7 := by omega
  have hn : ∀ k, 1 ≤ k → R.parent_id ≠ s0.counter + k := fun k hk =>
    Nat.ne_of_lt (Nat.lt_of_lt_of_le pR (Nat.add_le_add_left hk _))
  have n1 := hn 1 (by decide)
  have n2 := hn 2 (by decide)
  have n3 := hn 3 (by decide)
  have n4 := hn 4 (by decide)
  have n5 := hn 5 (by decide)
  have n6 := hn 6 (by decide)
  have n7 := hn 7 (by decide)
  have hchildren : ∀ x, s0.counter < x → s7.children x
      = ([R, A, B, C, D, E, F].filter fun c => decide (c.parent_id = x)).map
          Service.ChirpRecord.id := by
    intro x hx
    unfold ServiceDataStructure.children
    rw [hchirps, List.filter_append, hold_children x hx, List.nil_append]
  have hread : ∀ x, s0.counter < x → s7.ReadChirp x
      = ([R, A, B, C, D, E, F].find? fun c => decide (c.id = x)).filter fun c => !c.removed := by
    intro x hx
    unfold ServiceDataStructure.ReadChirp ServiceDataStructure.lookup
    rw [hchirps, List.find?_append, hold_find x hx, Option.none_or]
  have c1 : s7.children (s0.counter + 1) = [s0.counter + 2, s0.counter + 3, s0.counter + 4] := by
    rw [hchildren _ l1]
    simp [List.filter_cons, pA, pB, pC, pD, pE, pF, n1, hA, hB, hC]
  have c2 : s7.children (s0.counter + 2) = [s0.counter + 5, s0.counter + 6, s0.counter + 7] := by
    rw [hchildren _ l2]
    simp [List.filter_cons, pA, pB, pC, pD, pE, pF, n2, hD, hE, hF]
  have c3 : s7.children (s0.counter + 3) = [] := by
    rw [hchildren _ l3]
    simp [List.filter_cons, pA, pB, pC, pD, pE, pF, n3]
  have c4 : s7.children (s0.counter + 4) = [] := by
    rw [hchildren _ l4]
    simp [List.filter_cons, pA, pB, pC, pD, pE, pF, n4]
  have c5 : s7.children (s0.counter + 5) = [] := by
    rw [hchildren _ l5]
    simp [List.filter_cons, pA, pB, pC, pD, pE, pF, n5]
  have c6 : s7.children (s0.counter + 6) = [] := by
    rw [hchildren _ l6]
    simp [List.filter_cons, pA, pB, pC, pD, pE, pF, n6]
  have c7 : s7.children (s0.counter + 7) = [] := by
    rw [hchildren _ l7]
    simp [List.filter_cons, pA, pB, pC, pD, pE, pF, n7]
  have r1 : s7.ReadChirp (s0.counter + 1) = some R := by
    rw [hread _ l1]
    simp [List.find?_cons, hR, Option.filter, rR]
  have r2 : s7.ReadChirp (s0.counter + 2) = some A := by
    rw [hread _ l2]
    simp [List.find?_cons, hR, hA, Option.filter, rA]
  have r3 : s7.ReadChirp (s0.counter + 3) = some B := by
    rw [hread _ l3]
    simp [List.find?_cons, hR, hA, hB, Option.filter, rB]
  have r4 : s7.ReadChirp (s0.counter + 4) = some C := by
    rw [hread _ l4]
    simp [List.find?_cons, hR, hA, hB, hC, Option.filter, rC]
  have r5 : s7.ReadChirp (s0.counter + 5) = some D := by
    rw [hread _ l5]
    simp [List.find?_cons, hR, hA, hB, hC, hD, Option.filter, rD]
  have r6 : s7.ReadChirp (s0.counter + 6) = some E := by
    rw [hread _ l6]
    simp [List.find?_cons, hR, hA, hB, hC, hD, hE, Option.filter, rE]
  have r7 : s7.ReadChirp (s0.counter + 7) = some F := by
    rw [hread _ l7]
    simp [List.find?_cons, hR, hA, hB, hC, hD, hE, hF, Option.filter, rF]
  have t3 : s7.thread (s0.counter + 3) = [B] := by
    rw [h7.thread_eq, r3, c3]; rfl
  have t4 : s7.thread (s0.counter + 4) = [C] := by
    rw [h7.thread_eq, r4, c4]; rfl
  have t5 : s7.thread (s0.counter + 5) = [D] := by
    rw [h7.thread_eq, r5, c5]; rfl
  have t6 : s7.thread (s0.counter + 6) = [E] := by
    rw [h7.thread_eq, r6, c6]; rfl
  have t7 : s7.thread (s0.counter + 7) = [F] := by
    rw [h7.thread_eq, r7, c7]; rfl
  have t2 : s7.thread (s0.counter + 2) = [A, D, E, F] := by
    rw [h7.thread_eq, r2, c2]
    simp [List.flatMap_cons, t5, t6, t7]
  rw [h7.thread_eq, r1, c1]
  simp [List.flatMap_cons, t2, t3, t4]

/-- C7: in every state of the service data structure and for all usernames `u`
and `v`, `UserRegister(u)` succeeds exactly when `u` is not yet registered; on an
already registered username it fails and leaves the state, so the set of
registered users, as it was; on a new one it adds exactly `u`; two distinct
unregistered usernames are both registered with success; after
`UserRegister(u)`, `UserLogin(u)` returns a session whose `SessionGetUsername()`
is `u`; and `UserLogin` of a username that is not registered returns null. -/
theorem UserRegister_succeeds_iff_new (s : ServiceDataStructure) (u v : String) :
    ((s.UserRegister u).1 = true ↔ u ∉ s.users)
    ∧ (u ∈ s.users → s.UserRegister u = (false, s))
    ∧ (u ∉ s.users → (s.UserRegister u).2.users = s.users ++ [u])
    ∧ (u ∉ s.users → v ∉ s.users → u ≠ v →
        (s.UserRegister u).1 = true ∧ ((s.UserRegister u).2.UserRegister v).1 = true)
    ∧ (∃ session, ((s.UserRegister u).2.UserLogin u).1 = some session
        ∧ session.SessionGetUsername = u)
    ∧ (v ∉ s.users → (s.UserLogin v).1 = none ∧ (s.UserLogin v).2 = s) := by
  refine ⟨?_, ?_, ?_, ?_, ?_, ?_⟩
  · by_cases h : u ∈ s.users <;> simp [ServiceDataStructure.UserRegister, h]
  · intro h
    simp [ServiceDataStructure.UserRegister, h]
  · intro h
    simp [ServiceDataStructure.UserRegister, h]
  · intro hu hv huv
    have hvu : ¬ v = u := fun h => huv h.symm
    simp [ServiceDataStructure.UserRegister, hu, hv, hvu]
  · by_cases h : u ∈ s.users
    · exact ⟨⟨s.logins + 1, u⟩, by
        simp [ServiceDataStructure.UserRegister, ServiceDataStructure.UserLogin, h], rfl⟩
    · exact ⟨⟨s.logins + 1, u⟩, by
        simp [ServiceDataStructure.UserRegister, ServiceDataStructure.UserLogin, h], rfl⟩
  · intro h
    simp [ServiceDataStructure.UserLogin, h]

/-- C7 on the state in which `"user0"` is registered: registering `"user0"`
again fails and changes nothing, `"user10"` and `"user11"` are both registered
with success, the login as `"user10"` after its registration is bound to
`"user10"`, and the login as `"nonexist"` returns null. -/
theorem UserRegister_succeeds_iff_new_witness :
    (ServiceDataStructure.init.run [Service.Op.UserRegister "user0"]).UserRegister "user0"
        = (false, ServiceDataStructure.init.run [Service.Op.UserRegister "user0"])
    ∧ ((ServiceDataStructure.init.run [Service.Op.UserRegister "user0"]).UserRegister
          "user10").1 = true
    ∧ (((ServiceDataStructure.init.run [Service.Op.UserRegister "user0"]).UserRegister
          "user10").2.UserRegister "user11").1 = true
    ∧ (∃ session,
        (((ServiceDataStructure.init.run [Service.Op.UserRegister "user0"]).UserRegister
          "user10").2.UserLogin "user10").1 = some session
        ∧ session.SessionGetUsername = "user10")
    ∧ ((ServiceDataStructure.init.run [Service.Op.UserRegister "user0"]).UserLogin
          "nonexist").1 = none :=
  ⟨(UserRegister_succeeds_iff_new
      (ServiceDataStructure.init.run [Service.Op.UserRegister "user0"]) "user0" "user0").2.1
      (by decide),
    ((UserRegister_succeeds_iff_new
      (ServiceDataStructure.init.run [Service.Op.UserRegister "user0"]) "user10"
      "user11").2.2.2.1 (by decide) (by decide) (by decide)).1,
    ((UserRegister_succeeds_iff_new
      (ServiceDataStructure.init.run [Service.Op.UserRegister "user0"]) "user10"
      "user11").2.2.2.1 (by decide) (by decide) (by decide)).2,
    (UserRegister_succeeds_iff_new
      (ServiceDataStructure.init.run [Service.Op.UserRegister "user0"]) "user10"
      "user11").2.2.2.2.1,
    ((UserRegister_succeeds_iff_new
      (ServiceDataStructure.init.run [Service.Op.UserRegister "user0"]) "user10"
      "nonexist").2.2.2.2.2 (by decide)).1⟩

/-- C8: a chirp posted with success, in any state the service data structure
can reach, is deleted with success by the first `DeleteChirp` of its id, whatever
calls other than that came in between, and every later `DeleteChirp` of it
fails and changes nothing, whatever calls came in between. The deletion does not
cascade: `ReadChirp` of every other id returns what it returned before, and the
chirp list of every user is the list before without the deleted id, in the same
order. Deleting the first 5 chirps of the 10-chirp reply chain of the test leaves
exactly the last 5 texts, in order. -/
theorem DeleteChirp_succeeds_once_without_cascade :
    (∀ (ops ops1 : List Service.Op) (author text : String) (parent_id now : Nat)
        (record : Service.ChirpRecord) (s1 : ServiceDataStructure),
      (ServiceDataStructure.init.run ops).PostChirp author text parent_id now
          = Except.ok (record, s1) →
      (∀ op ∈ ops1, op ≠ Service.Op.DeleteChirp record.id) →
      ((s1.run ops1).DeleteChirp record.id).1 = true
      ∧ (∀ ops2 : List Service.Op,
          (((s1.run ops1).DeleteChirp record.id).2.run ops2).DeleteChirp record.id
            = (false, ((s1.run ops1).DeleteChirp record.id).2.run ops2))
      ∧ (∀ y : Nat, y ≠ record.id →
          ((s1.run ops1).DeleteChirp record.id).2.ReadChirp y = (s1.run ops1).ReadChirp y)
      ∧ (∀ u : String,
          ((s1.run ops1).DeleteChirp record.id).2.SessionGetUserChirpList u
            = ((s1.run ops1).SessionGetUserChirpList u).filter fun id =>
                decide (id ≠ record.id)))
    ∧ (ServiceDataStructure.init.run chainTestOps).userTexts "user0"
        = [some "Chirp #0short", some "Chirp #1short", some "Chirp #2short",
            some "Chirp #3short", some "Chirp #4short", some "Chirp #5short",
            some "Chirp #6short", some "Chirp #7short", some "Chirp #8short",
            some "Chirp #9short"]
    ∧ ((ServiceDataStructure.init.run chainTestOps).run
          [Service.Op.DeleteChirp 1, Service.Op.DeleteChirp 2, Service.Op.DeleteChirp 3,
            Service.Op.DeleteChirp 4, Service.Op.DeleteChirp 5]).userTexts "user0"
        = [some "Chirp #5short", some "Chirp #6short", some "Chirp #7short",
            some "Chirp #8short", some "Chirp #9short"] := by
  refine ⟨?_, by decide, by decide⟩
  intro ops ops1 author text parent_id now record s1 hpost hops1
  have hwf := ServiceDataStructure.WellFormed.of_init.of_run ops
  have hread : (s1.ReadChirp record.id).isSome = true := by
    rw [ServiceDataStructure.PostChirp_readable hwf author text parent_id now (record, s1) hpost]
    rfl
  have hpresent := s1.ReadChirp_isSome_run record.id ops1 hread hops1
  have hdel := (s1.run ops1).DeleteChirp_tombstones record.id hpresent
  refine ⟨hdel.1, ?_, ?_, ?_⟩
  · intro ops2
    exact (hdel.2.after_run ops2).DeleteChirp_fails
  · intro y hy
    exact (s1.run ops1).DeleteChirp_ReadChirp_other record.id y hy
  · intro u
    exact (s1.run ops1).DeleteChirp_chirpList record.id u hpresent

/-- C8 at the first chirp of the reply chain of the test: after the nine replies
below it were posted, its first `DeleteChirp` succeeds, a second one fails, the
reply right below it is read as before, and the chirp list of the user loses
exactly the id 1. -/
theorem DeleteChirp_succeeds_once_without_cascade_witness :
    ((ServiceDataStructure.init.run chainTestOps).DeleteChirp 1).1 = true
    ∧ (((ServiceDataStructure.init.run chainTestOps).DeleteChirp 1).2.DeleteChirp 1).1 = false
    ∧ ((ServiceDataStructure.init.run chainTestOps).DeleteChirp 1).2.ReadChirp 2
        = some ⟨2, "user0", "Chirp #1short", 11, 1, false⟩
    ∧ ((ServiceDataStructure.init.run chainTestOps).DeleteChirp 1).2.SessionGetUserChirpList
          "user0" = [2, 3, 4, 5, 6, 7, 8, 9, 10] := by
  have h := DeleteChirp_succeeds_once_without_cascade.1
    [Service.Op.UserRegister "user0"] (chainTestOps.drop 2) "user0" "Chirp #0short" 0 10
    ⟨1, "user0", "Chirp #0short", 10, 0, false⟩
    (ServiceDataStructure.init.run (chainTestOps.take 2)) rfl (by decide)
  have hrun : (ServiceDataStructure.init.run (chainTestOps.take 2)).run (chainTestOps.drop 2)
      = ServiceDataStructure.init.run chainTestOps := by decide
  rw [hrun] at h
  refine ⟨h.1, ?_, ?_, ?_⟩
  · have := h.2.1 []
    exact congrArg Prod.fst this
  · rw [h.2.2.1 2 (by decide)]
    decide
  · rw [h.2.2.2 "user0"]
    decide

/-- C4: in every state the service data structure can reach, `Read` of an id
whose chirp is present succeeds and returns that chirp followed by the lists of
its direct replies, each list built the same way (a removed chirp contributes
only the lists of its replies), the direct replies taken in ascending id order:
the depth-first pre-order. The list holds exactly the present chirps at or below
the id, each once. For a root R, replies A, B, C to R posted in that order and
then replies D, E, F to A posted in that order, all with success, `Read(R.id)`
returns exactly [R, A, D, E, F, B, C], each record with the username of its
poster. -/
theorem Read_returns_thread_in_preorder :
    (∀ (s : ServiceDataStructure) (id : Nat) (r : Service.ChirpRecord),
      s.Reachable → s.ReadChirp id = some r →
      s.Read id = Except.ok (s.thread id)
      ∧ s.thread id = r :: (s.children id).flatMap s.thread
      ∧ (∀ x : Nat, s.thread x = (s.ReadChirp x).toList ++ (s.children x).flatMap s.thread)
      ∧ (∀ x y : Nat, y ∈ s.children x ↔ ∃ c ∈ s.chirps, c.id = y ∧ c.parent_id = x)
      ∧ (∀ x : Nat, (s.children x).Pairwise (· < ·))
      ∧ (∀ c : Service.ChirpRecord,
          c ∈ s.thread id ↔ s.ReadChirp c.id = some c ∧ s.Descends id c.id)
      ∧ (s.thread id).Nodup)
    ∧ (∀ (s0 s1 s2 s3 s4 s5 s6 s7 : ServiceDataStructure)
        (uR uA uB uC uD uE uF tR tA tB tC tD tE tF : String) (nR nA nB nC nD nE nF : Nat)
        (R A B C D E F : Service.ChirpRecord),
      s0.Reachable →
      s0.PostChirp uR tR 0 nR = Except.ok (R, s1) →
      s1.PostChirp uA tA R.id nA = Except.ok (A, s2) →
      s2.PostChirp uB tB R.id nB = Except.ok (B, s3) →
      s3.PostChirp uC tC R.id nC = Except.ok (C, s4) →
      s4.PostChirp uD tD A.id nD = Except.ok (D, s5) →
      s5.PostChirp uE tE A.id nE = Except.ok (E, s6) →
      s6.PostChirp uF tF A.id nF = Except.ok (F, s7) →
      s7.Read R.id = Except.ok [R, A, D, E, F, B, C]
      ∧ [R, A, D, E, F, B, C].map Service.ChirpRecord.username
          = [uR, uA, uD, uE, uF, uB, uC]) := by
  constructor
  · rintro s id r ⟨ops, rfl⟩ hr
    have hwf := ServiceDataStructure.WellFormed.of_init.of_run ops
    refine ⟨?_, ?_, hwf.thread_eq, (ServiceDataStructure.init.run ops).mem_children,
      hwf.children_sorted, ?_, hwf.subtree_nodup _ _⟩
    · unfold ServiceDataStructure.Read
      rw [hr]
      rfl
    · rw [hwf.thread_eq id, hr]
      rfl
    · intro c
      constructor
      · exact (ServiceDataStructure.init.run ops).mem_subtree _ id c
      · rintro ⟨hc, hd⟩
        exact hwf.mem_thread hd c hc
  · rintro s0 s1 s2 s3 s4 s5 s6 s7 uR uA uB uC uD uE uF tR tA tB tC tD tE tF
      nR nA nB nC nD nE nF R A B C D E F ⟨ops, rfl⟩ h1 h2 h3 h4 h5 h6 h7
    have w0 := ServiceDataStructure.WellFormed.of_init.of_run ops
    have w1 := w0.of_PostChirp _ _ _ _ _ h1
    have w2 := w1.of_PostChirp _ _ _ _ _ h2
    have w3 := w2.of_PostChirp _ _ _ _ _ h3
    have w4 := w3.of_PostChirp _ _ _ _ _ h4
    have w5 := w4.of_PostChirp _ _ _ _ _ h5
    have w6 := w5.of_PostChirp _ _ _ _ _ h6
    have w7 := w6.of_PostChirp _ _ _ _ _ h7
    obtain ⟨e1, f1⟩ := ServiceDataStructure.PostChirp_ok_inv _ _ _ _ _ _ _ h1
    obtain ⟨e2, f2⟩ := ServiceDataStructure.PostChirp_ok_inv _ _ _ _ _ _ _ h2
    obtain ⟨e3, f3⟩ := ServiceDataStructure.PostChirp_ok_inv _ _ _ _ _ _ _ h3
    obtain ⟨e4, f4⟩ := ServiceDataStructure.PostChirp_ok_inv _ _ _ _ _ _ _ h4
    obtain ⟨e5, f5⟩ := ServiceDataStructure.PostChirp_ok_inv _ _ _ _ _ _ _ h5
    obtain ⟨e6, f6⟩ := ServiceDataStructure.PostChirp_ok_inv _ _ _ _ _ _ _ h6
    obtain ⟨e7, f7⟩ := ServiceDataStructure.PostChirp_ok_inv _ _ _ _ _ _ _ h7
    have k1 : s1.counter = (ServiceDataStructure.init.run ops).counter + 1 := by rw [f1]
    have k2 : s2.counter = (ServiceDataStructure.init.run ops).counter + 2 := by rw [f2, k1]
    have k3 : s3.counter = (ServiceDataStructure.init.run ops).counter + 3 := by rw [f3, k2]
    have k4 : s4.counter = (ServiceDataStructure.init.run ops).counter + 4 := by rw [f4, k3]
    have k5 : s5.counter = (ServiceDataStructure.init.run ops).counter + 5 := by rw [f5, k4]
    have k6 : s6.counter = (ServiceDataStructure.init.run ops).counter + 6 := by rw [f6, k5]
    have k7 : s7.counter = (ServiceDataStructure.init.run ops).counter + 7 := by rw [f7, k6]
    have hchirps : s7.chirps
        = (ServiceDataStructure.init.run ops).chirps ++ [R, A, B, C, D, E, F] := by
      rw [f7]; dsimp only
      rw [f6]; dsimp only
      rw [f5]; dsimp only
      rw [f4]; dsimp only
      rw [f3]; dsimp only
      rw [f2]; dsimp only
      rw [f1]; dsimp only
      simp
    have hR : R.id = (ServiceDataStructure.init.run ops).counter + 1 := by rw [e1]
    have hA : A.id = (ServiceDataStructure.init.run ops).counter + 2 := by rw [e2, k1]
    have hthread := w0.thread_test_tree w7 R A B C D E F hR hA
      (by rw [e3, k2]) (by rw [e4, k3]) (by rw [e5, k4]) (by rw [e6, k5]) (by rw [e7, k6])
      (by rw [e2]; exact hR) (by rw [e3]; exact hR) (by rw [e4]; exact hR)
      (by rw [e5]; exact hA) (by rw [e6]; exact hA) (by rw [e7]; exact hA)
      (by rw [e1]; exact Nat.succ_pos _)
      (by rw [e1]) (by rw [e2]) (by rw [e3]) (by rw [e4]) (by rw [e5]) (by rw [e6]) (by rw [e7])
      hchirps
    constructor
    · have hread : s7.ReadChirp R.id = some R := by
        have hm : R ∈ s7.thread R.id := by rw [hR, hthread]; simp
        have := (s7.mem_subtree _ R.id R hm).1
        exact this
      unfold ServiceDataStructure.Read
      rw [hread]
      show Except.ok (s7.thread R.id) = _
      rw [hR, hthread]
    · rw [e1, e2, e3, e4, e5, e6, e7]
      rfl

/-- C4 at the tree of the `Read` test for the user `"User0"`: the chirp of id 1
is present, and `Read(1)` returns the chirps of ids 1, 2, 5, 6, 7, 3, 4, all of
`"User0"`. -/
theorem Read_returns_thread_in_preorder_witness :
    (ServiceDataStructure.init.run (readTestOps "User0")).ReadChirp 1
        = some ⟨1, "User0", "short", 10, 0, false⟩
    ∧ (ServiceDataStructure.init.run (readTestOps "User0")).Read 1
        = Except.ok ((ServiceDataStructure.init.run (readTestOps "User0")).thread 1)
    ∧ ((ServiceDataStructure.init.run (readTestOps "User0")).thread 1).map
          (fun c => (c.id, c.username))
        = [(1, "User0"), (2, "User0"), (5, "User0"), (6, "User0"), (7, "User0"), (3, "User0"),
            (4, "User0")]
    ∧ ((ServiceDataStructure.init.run (readTestOps "User0")).thread 1).Nodup
    ∧ (ServiceDataStructure.init.run (readTestOps "User0")).Read 1
        = Except.ok
          [⟨1, "User0", "short", 10, 0, false⟩, ⟨2, "User0", "short", 11, 1, false⟩,
            ⟨5, "User0", "short", 14, 2, false⟩, ⟨6, "User0", "short", 15, 2, false⟩,
            ⟨7, "User0", "short", 16, 2, false⟩, ⟨3, "User0", "short", 12, 1, false⟩,
            ⟨4, "User0", "short", 13, 1, false⟩] :=
  ⟨by decide,
    (Read_returns_thread_in_preorder.1 (ServiceDataStructure.init.run (readTestOps "User0")) 1
      ⟨1, "User0", "short", 10, 0, false⟩ ⟨readTestOps "User0", rfl⟩ (by decide)).1,
    by decide,
    (Read_returns_thread_in_preorder.1 (ServiceDataStructure.init.run (readTestOps "User0")) 1
      ⟨1, "User0", "short", 10, 0, false⟩ ⟨readTestOps "User0", rfl⟩
      (by decide)).2.2.2.2.2.2,
    (Read_returns_thread_in_preorder.2
      (ServiceDataStructure.init.run ((readTestOps "User0").take 1))
      (ServiceDataStructure.init.run ((readTestOps "User0").take 2))
      (ServiceDataStructure.init.run ((readTestOps "User0").take 3))
      (ServiceDataStructure.init.run ((readTestOps "User0").take 4))
      (ServiceDataStructure.init.run ((readTestOps "User0").take 5))
      (ServiceDataStructure.init.run ((readTestOps "User0").take 6))
      (ServiceDataStructure.init.run ((readTestOps "User0").take 7))
      (ServiceDataStructure.init.run (readTestOps "User0"))
      "User0" "User0" "User0" "User0" "User0" "User0" "User0"
      "short" "short" "short" "short" "short" "short" "short" 10 11 12 13 14 15 16
      ⟨1, "User0", "short", 10, 0, false⟩ ⟨2, "User0", "short", 11, 1, false⟩
      ⟨3, "User0", "short", 12, 1, false⟩ ⟨4, "User0", "short", 13, 1, false⟩
      ⟨5, "User0", "short", 14, 2, false⟩ ⟨6, "User0", "short", 15, 2, false⟩
      ⟨7, "User0", "short", 16, 2, false⟩
      ⟨(readTestOps "User0").take 1, rfl⟩ rfl rfl rfl rfl rfl rfl rfl).1⟩

/-! ### The command line tool: relative age, monitoring, padding -/

theorem chrono.int64_of_fits (x : Int) (hlo : -9223372036854775808 ≤ x)
    (hhi : x < 9223372036854775808) : chrono.int64 x = x := by
  unfold chrono.int64
  omega

/-- A truncated quotient by a positive number reaches a positive `k` exactly
when the dividend reaches `k` times the divisor. -/
theorem chrono.le_duration_cast_iff (p d k : Int) (hp : 0 < p) (hk : 1 ≤ k) :
    k ≤ chrono.duration_cast p d ↔ k * p ≤ d := by
  unfold chrono.duration_cast
  by_cases hd : 0 ≤ d
  · rw [Int.tdiv_eq_ediv hd (le_of_lt hp)]
    exact Int.le_ediv_iff_mul_le hp
  · have hneg : d.tdiv p ≤ 0 := by
      have h1 : (-d).tdiv p = -(d.tdiv p) := Int.neg_tdiv d p
      have h2 : 0 ≤ (-d).tdiv p := Int.tdiv_nonneg (by omega) (le_of_lt hp)
      omega
    have hkp : 0 < k * p := Int.mul_pos (by omega) hp
    constructor
    · intro h; omega
    · intro h; omega

/-- C14: for every clock reading and every chirp, `command_tool::PrintTimeDiff`
prints one of four forms, chosen by the age `d` it computes alone, each followed
by a blank: the whole seconds of `d` (truncated toward zero, so also for ages of
0 or less) with " sec(s) ago" when `d` is less than 60 seconds; the whole minutes
with " min(s) ago" from 60 seconds to less than an hour; the whole hours with
" hour(s) ago" from an hour to less than 25 hours; the whole hours divided by 24
with " day(s) ago" from 25 hours on. In the last three forms the number printed
is at least 1. When the timestamp and the age fit the 64-bit tick count, `d` is
the clock reading minus the timestamp. -/
theorem PrintTimeDiff_prints_one_of_four_forms (ticks : Nat) (now : Int)
    (chirp : ServiceClient.Chirp) (hticks : 0 < ticks) :
    (command_tool.PrintTimeDiff.diff ticks now chirp < 60 * (ticks : Int) →
      command_tool.PrintTimeDiff ticks now chirp
        = [Out.str (toString ((command_tool.PrintTimeDiff.diff ticks now chirp).tdiv ticks)),
            Out.str " sec(s) ago", Out.str " "])
    ∧ (60 * (ticks : Int) ≤ command_tool.PrintTimeDiff.diff ticks now chirp →
      command_tool.PrintTimeDiff.diff ticks now chirp < 3600 * (ticks : Int) →
      command_tool.PrintTimeDiff ticks now chirp
          = [Out.str (toString
                ((command_tool.PrintTimeDiff.diff ticks now chirp).tdiv (60 * (ticks : Int)))),
              Out.str " min(s) ago", Out.str " "]
        ∧ 1 ≤ (command_tool.PrintTimeDiff.diff ticks now chirp).tdiv (60 * (ticks : Int)))
    ∧ (3600 * (ticks : Int) ≤ command_tool.PrintTimeDiff.diff ticks now chirp →
      command_tool.PrintTimeDiff.diff ticks now chirp < 25 * (3600 * (ticks : Int)) →
      command_tool.PrintTimeDiff ticks now chirp
          = [Out.str (toString
                ((command_tool.PrintTimeDiff.diff ticks now chirp).tdiv (3600 * (ticks : Int)))),
              Out.str " hour(s) ago", Out.str " "]
        ∧ 1 ≤ (command_tool.PrintTimeDiff.diff ticks now chirp).tdiv (3600 * (ticks : Int)))
    ∧ (25 * (3600 * (ticks : Int)) ≤ command_tool.PrintTimeDiff.diff ticks now chirp →
      command_tool.PrintTimeDiff ticks now chirp
          = [Out.str (toString
                (((command_tool.PrintTimeDiff.diff ticks now chirp).tdiv
                  (3600 * (ticks : Int))).tdiv 24)),
              Out.str " day(s) ago", Out.str " "]
        ∧ 1 ≤ ((command_tool.PrintTimeDiff.diff ticks now chirp).tdiv
                (3600 * (ticks : Int))).tdiv 24)
    ∧ (-9223372036854775808 ≤ chirp.timestamp.seconds * (ticks : Int) →
      chirp.timestamp.seconds * (ticks : Int) < 9223372036854775808 →
      -9223372036854775808 ≤ now - chirp.timestamp.seconds * (ticks : Int) →
      now - chirp.timestamp.seconds * (ticks : Int) < 9223372036854775808 →
      command_tool.PrintTimeDiff.diff ticks now chirp
        = now - chirp.timestamp.seconds * (ticks : Int)) := by
  have hT : (0 : Int) < (ticks : Int) := by exact_mod_cast hticks
  have h60 : (0 : Int) < 60 * (ticks : Int) := by omega
  have h3600 : (0 : Int) < 3600 * (ticks : Int) := by omega
  generalize hd : command_tool.PrintTimeDiff.diff ticks now chirp = d
  have hform : command_tool.PrintTimeDiff ticks now chirp
      = (if chrono.duration_cast (3600 * (ticks : Int)) d * 3600 > 86400 then
          [Out.str (toString ((chrono.duration_cast (3600 * (ticks : Int)) d).tdiv 24)),
            Out.str " day(s) ago"]
        else if chrono.duration_cast (3600 * (ticks : Int)) d > 0 then
          [Out.str (toString (chrono.duration_cast (3600 * (ticks : Int)) d)),
            Out.str " hour(s) ago"]
        else if chrono.duration_cast (60 * (ticks : Int)) d > 0 then
          [Out.str (toString (chrono.duration_cast (60 * (ticks : Int)) d)),
            Out.str " min(s) ago"]
        else
          [Out.str (toString (chrono.duration_cast (ticks : Int) d)), Out.str " sec(s) ago"])
        ++ [Out.str " "] := by
    unfold command_tool.PrintTimeDiff
    rw [hd]
  have hday := chrono.le_duration_cast_iff (3600 * (ticks : Int)) d 25 h3600 (by decide)
  have hhour := chrono.le_duration_cast_iff (3600 * (ticks : Int)) d 1 h3600 (by decide)
  have hmin := chrono.le_duration_cast_iff (60 * (ticks : Int)) d 1 h60 (by decide)
  refine ⟨?_, ?_, ?_, ?_, ?_⟩
  · intro h
    have c1 : ¬ chrono.duration_cast (3600 * (ticks : Int)) d * 3600 > 86400 := by
      intro hc
      have := hday.mp (by omega)
      omega
    have c2 : ¬ chrono.duration_cast (3600 * (ticks : Int)) d > 0 := by
      intro hc
      have := hhour.mp (by omega)
      omega
    have c3 : ¬ chrono.duration_cast (60 * (ticks : Int)) d > 0 := by
      intro hc
      have := hmin.mp (by omega)
      omega
    rw [hform, if_neg c1, if_neg c2, if_neg c3]
    rfl
  · intro hlo hhi
    have c1 : ¬ chrono.duration_cast (3600 * (ticks : Int)) d * 3600 > 86400 := by
      intro hc
      have := hday.mp (by omega)
      omega
    have c2 : ¬ chrono.duration_cast (3600 * (ticks : Int)) d > 0 := by
      intro hc
      have := hhour.mp (by omega)
      omega
    have c3 : chrono.duration_cast (60 * (ticks : Int)) d > 0 := by
      have := hmin.mpr (by omega)
      omega
    rw [hform, if_neg c1, if_neg c2, if_pos c3]
    exact ⟨rfl, hmin.mpr (by omega)⟩
  · intro hlo hhi
    have c1 : ¬ chrono.duration_cast (3600 * (ticks : Int)) d * 3600 > 86400 := by
      intro hc
      have := hday.mp (by omega)
      omega
    have c2 : chrono.duration_cast (3600 * (ticks : Int)) d > 0 := by
      have := hhour.mpr (by omega)
      omega
    rw [hform, if_neg c1, if_pos c2]
    exact ⟨rfl, hhour.mpr (by omega)⟩
  · intro hlo
    have h25 : 25 ≤ d.tdiv (3600 * (ticks : Int)) := hday.mpr (by omega)
    have c1 : chrono.duration_cast (3600 * (ticks : Int)) d * 3600 > 86400 := by
      show d.tdiv (3600 * (ticks : Int)) * 3600 > 86400
      omega
    rw [hform, if_pos c1]
    refine ⟨rfl, ?_⟩
    exact (chrono.le_duration_cast_iff 24 _ 1 (by decide) (by decide)).mpr (by omega)
  · intro h1 h2 h3 h4
    rw [← hd]
    unfold command_tool.PrintTimeDiff.diff
    dsimp only
    rw [chrono.int64_of_fits _ h1 h2, chrono.int64_of_fits _ h3 h4]

/-- C14 with a clock of 1000000000 ticks a second and a chirp posted at second 0:
read 90000 seconds later the chirp is "1 day(s) ago", read 59 seconds before it
was posted it is "-59 sec(s) ago". -/
theorem PrintTimeDiff_prints_one_of_four_forms_witness :
    command_tool.PrintTimeDiff 1000000000 90000000000000 (chirpAt 0)
        = [Out.str "1", Out.str " day(s) ago", Out.str " "]
    ∧ 1 ≤ ((command_tool.PrintTimeDiff.diff 1000000000 90000000000000 (chirpAt 0)).tdiv
            (3600 * ((1000000000 : Nat) : Int))).tdiv 24
    ∧ command_tool.PrintTimeDiff 1000000000 (-59000000000) (chirpAt 0)
        = [Out.str "-59", Out.str " sec(s) ago", Out.str " "] :=
  ⟨((PrintTimeDiff_prints_one_of_four_forms 1000000000 90000000000000 (chirpAt 0)
      (by decide)).2.2.2.1 (by decide)).1.trans (by decide),
    ((PrintTimeDiff_prints_one_of_four_forms 1000000000 90000000000000 (chirpAt 0)
      (by decide)).2.2.2.1 (by decide)).2,
    ((PrintTimeDiff_prints_one_of_four_forms 1000000000 (-59000000000) (chirpAt 0)
      (by decide)).1 (by decide)).trans (by decide)⟩

/-- C12: with a clock of 1000000000 ticks a second, a chirp posted at second 0
and read at second 86401, so of an age greater than one day, is printed as
"24 hour(s) ago", not in days: its 24 whole hours are not more than 86400
seconds. The same holds up to the age of 24 h 59 min 59 s. -/
theorem PrintTimeDiff_prints_hours_just_over_a_day :
    command_tool.PrintTimeDiff.diff 1000000000 86401000000000 (chirpAt 0) = 86401000000000
    ∧ (86400 : Int) * 1000000000
        < command_tool.PrintTimeDiff.diff 1000000000 86401000000000 (chirpAt 0)
    ∧ command_tool.PrintTimeDiff 1000000000 86401000000000 (chirpAt 0)
        = [Out.str "24", Out.str " hour(s) ago", Out.str " "]
    ∧ command_tool.PrintTimeDiff 1000000000 89999000000000 (chirpAt 0)
        = [Out.str "24", Out.str " hour(s) ago", Out.str " "]
    ∧ command_tool.PrintTimeDiff 1000000000 90000000000000 (chirpAt 0)
        = [Out.str "1", Out.str " day(s) ago", Out.str " "] := by
  refine ⟨?_, ?_, ?_, ?_, ?_⟩ <;> decide

theorem command_tool.Monitor.for_loop_eq (chirps : List ServiceClient.Chirp) :
    ∀ (n i : Nat) (cout : List Out), i + n ≤ chirps.length →
      command_tool.Monitor.for_loop chirps n i cout
        = cout ++ ((chirps.drop i).take n).map fun c => Out.PrintSingleChirp c 0 := by
  intro n
  induction n with
  | zero => intro i cout _; simp [command_tool.Monitor.for_loop]
  | succ n ih =>
    intro i cout h
    have hi : i < chirps.length := by omega
    have hd : chirps.drop i = chirps[i] :: chirps.drop (i + 1) := List.drop_eq_getElem_cons hi
    simp only [command_tool.Monitor.for_loop, List.getElem?_eq_getElem hi]
    rw [ih (i + 1) _ (by omega), hd, List.take_succ_cons, List.map_cons, List.append_assoc]
    rfl

/-- One iteration of the thread of `Monitor` that observes a size not below
`last_size`: the chirps from `last_size` up to the observed size are printed, in
index order, and `last_size` becomes the observed size. -/
theorem command_tool.Monitor.body_take (chirps : List ServiceClient.Chirp) (cout0 : List Out)
    (st : command_tool.Monitor.State) (size : Nat)
    (hst : st.cout = cout0 ++ (chirps.take st.last_size).map fun c => Out.PrintSingleChirp c 0)
    (hle : st.last_size ≤ size) (hsize : size ≤ chirps.length) :
    (command_tool.Monitor.body (chirps.take size) st).last_size = size
    ∧ (command_tool.Monitor.body (chirps.take size) st).cout
        = cout0 ++ (chirps.take size).map fun c => Out.PrintSingleChirp c 0 := by
  have hlen : (chirps.take size).length = size := by simp [hsize]
  unfold command_tool.Monitor.body
  dsimp only
  rw [hlen]
  refine ⟨rfl, ?_⟩
  rw [command_tool.Monitor.for_loop_eq _ _ _ _ (by rw [hlen]; omega), hst]
  have h2 : chirps.take st.last_size = (chirps.take size).take st.last_size := by
    rw [List.take_take, Nat.min_eq_left hle]
  have h3 : ((chirps.take size).drop st.last_size).take (size - st.last_size)
      = (chirps.take size).drop st.last_size :=
    List.take_of_length_le (by rw [List.length_drop, hlen])
  rw [h2, h3, List.append_assoc, ← List.map_append, List.take_append_drop]

theorem command_tool.Monitor.getLast?_cons_getD (l : List Nat) :
    ∀ (a d : Nat), (a :: l).getLast?.getD d = l.getLast?.getD a := by
  induction l with
  | nil => intro a d; rfl
  | cons b l ih =>
    intro a d
    rw [List.getLast?_cons_cons, ih b d, ih b a]

theorem command_tool.Monitor.print_chirps_eq (chirps : List ServiceClient.Chirp)
    (cout0 : List Out) (sizes : List Nat) :
    ∀ (st : command_tool.Monitor.State),
      st.cout = cout0 ++ (chirps.take st.last_size).map (fun c => Out.PrintSingleChirp c 0) →
      List.Chain (· ≤ ·) st.last_size sizes → (∀ size ∈ sizes, size ≤ chirps.length) →
      (command_tool.Monitor.print_chirps chirps sizes st).last_size
          = sizes.getLast?.getD st.last_size
      ∧ (command_tool.Monitor.print_chirps chirps sizes st).cout
          = cout0 ++ (chirps.take (sizes.getLast?.getD st.last_size)).map
              fun c => Out.PrintSingleChirp c 0 := by
  induction sizes with
  | nil => intro st hst _ _; exact ⟨rfl, hst⟩
  | cons size sizes ih =>
    intro st hst hchain hsizes
    obtain ⟨hle, hchain'⟩ := List.chain_cons.mp hchain
    have hb := command_tool.Monitor.body_take chirps cout0 st size hst hle
      (hsizes size (List.mem_cons_self _ _))
    have := ih (command_tool.Monitor.body (chirps.take size) st) (by rw [hb.2, hb.1])
      (by rw [hb.1]; exact hchain') (fun n hn => hsizes n (List.mem_cons_of_mem _ hn))
    rw [hb.1] at this
    rw [command_tool.Monitor.getLast?_cons_getD]
    exact this

theorem Out.calls_map_PrintSingleChirp (l : List ServiceClient.Chirp) (padding : Nat) :
    Out.calls (l.map fun c => Out.PrintSingleChirp c padding) = l.map fun c => (c, padding) := by
  induction l with
  | nil => rfl
  | cons c cs ih => simp [Out.calls, ih]

/-- C15: in the printing loop of the thread of `command_tool::Monitor`, when the
sizes of the vector the iterations observe never decrease (and are sizes of the
vector of received chirps), then after each iteration `last_size` is the size
last observed and the chirps printed so far are exactly `chirps[0 .. last_size)`,
in index order, each once and with padding 0. -/
theorem Monitor_prints_each_received_chirp_once (chirps : List ServiceClient.Chirp)
    (sizes : List Nat) (cout : List Out) (iterations : Nat)
    (hsizes : sizes.Chain' (· ≤ ·)) (hbound : ∀ size ∈ sizes, size ≤ chirps.length) :
    (command_tool.Monitor.print_chirps chirps (sizes.take iterations) ⟨0, cout⟩).last_size
        = (sizes.take iterations).getLast?.getD 0
    ∧ (command_tool.Monitor.print_chirps chirps (sizes.take iterations) ⟨0, cout⟩).cout
        = cout ++ (chirps.take ((sizes.take iterations).getLast?.getD 0)).map
            (fun c => Out.PrintSingleChirp c 0)
    ∧ Out.calls
          (command_tool.Monitor.print_chirps chirps (sizes.take iterations) ⟨0, cout⟩).cout
        = Out.calls cout ++ (chirps.take ((sizes.take iterations).getLast?.getD 0)).map
            (fun c => (c, 0)) := by
  have hchain : List.Chain (· ≤ ·) 0 (sizes.take iterations) := by
    have h := hsizes.take iterations
    cases hl : sizes.take iterations with
    | nil => exact List.Chain.nil
    | cons a l =>
      rw [hl] at h
      exact List.chain_cons.mpr ⟨Nat.zero_le a, h⟩
  have h := command_tool.Monitor.print_chirps_eq chirps cout (sizes.take iterations) ⟨0, cout⟩
    (by simp) hchain (fun n hn => hbound n (List.mem_of_mem_take hn))
  exact ⟨h.1, h.2, by rw [h.2, Out.calls_append, Out.calls_map_PrintSingleChirp]⟩

/-- C15 on five received chirps, the iterations observing the sizes 0, 2, 2, 5:
after three iterations the first two chirps are printed, after all four all
five, each once. -/
theorem Monitor_prints_each_received_chirp_once_witness :
    Out.calls (command_tool.Monitor.print_chirps
        [sampleChirp 1 0, sampleChirp 2 0, sampleChirp 3 0, sampleChirp 4 0, sampleChirp 5 0]
        ([0, 2, 2, 5].take 3) ⟨0, []⟩).cout
      = [(sampleChirp 1 0, 0), (sampleChirp 2 0, 0)]
    ∧ Out.calls (command_tool.Monitor.print_chirps
        [sampleChirp 1 0, sampleChirp 2 0, sampleChirp 3 0, sampleChirp 4 0, sampleChirp 5 0]
        ([0, 2, 2, 5].take 4) ⟨0, []⟩).cout
      = [(sampleChirp 1 0, 0), (sampleChirp 2 0, 0), (sampleChirp 3 0, 0), (sampleChirp 4 0, 0),
          (sampleChirp 5 0, 0)] :=
  ⟨(Monitor_prints_each_received_chirp_once
      [sampleChirp 1 0, sampleChirp 2 0, sampleChirp 3 0, sampleChirp 4 0, sampleChirp 5 0]
      [0, 2, 2, 5] [] 3 (by simp) (by decide)).2.2,
    (Monitor_prints_each_received_chirp_once
      [sampleChirp 1 0, sampleChirp 2 0, sampleChirp 3 0, sampleChirp 4 0, sampleChirp 5 0]
      [0, 2, 2, 5] [] 4 (by simp) (by decide)).2.2⟩

theorem command_tool.Monitor.join_never_returns (chirps : List ServiceClient.Chirp) :
    ∀ (fuel : Nat) (st : command_tool.Monitor.State),
      (command_tool.Monitor.join chirps fuel st).1 = false := by
  intro fuel
  induction fuel with
  | zero => intro st; rfl
  | succ fuel ih =>
    intro st
    simp only [command_tool.Monitor.join]
    rw [if_pos (by decide)]
    exact ih _

/-- With a username that is not empty `Monitor` does not return, however many
iterations its thread is given. -/
theorem command_tool.Monitor.never_returns {ω : Type} (service_client : ServiceClient ω)
    (SendMonitorRequest :
      ω → String → ServiceClient.ReturnCodes × List ServiceClient.Chirp × ω)
    (usage : String) (w : World ω) (username : String) (sizes : List Nat) (fuel : Nat)
    (h : username.isEmpty = false) :
    (command_tool.Monitor service_client SendMonitorRequest usage w username sizes fuel).1
      = none := by
  unfold command_tool.Monitor
  simp only [h, Bool.false_eq_true, if_false, command_tool.Monitor.join_never_returns]

/-- C13: `Monitor("alice")` against a service client whose `SendMonitorRequest`
returns at once with a failure. The outcome message is printed, and then
`Monitor` does not return, however many iterations the thread it joins is given:
the loop of that thread has no exit. -/
theorem Monitor_blocks_after_SendMonitorRequest_returns (fuel : Nat) :
    (command_tool.Monitor ServiceClient.counting ServiceClient.failingMonitor "usage"
        World.start "alice" [] fuel).1 = none
    ∧ (command_tool.Monitor ServiceClient.counting ServiceClient.failingMonitor "usage"
        World.start "alice" [] fuel).2.cout
      = [Out.str "Monitored as ", Out.str "alice", Out.str ": ", Out.str "\n",
          Out.str "failed", Out.str "\n"]
    ∧ (command_tool.Monitor ServiceClient.counting ServiceClient.failingMonitor "usage"
        World.start "alice" [] fuel).2.sent = [Request.Monitor "alice"] := by
  have hjoin : ∀ (fuel : Nat) (st : command_tool.Monitor.State),
      (command_tool.Monitor.join [] fuel st).2.cout = st.cout := by
    intro fuel
    induction fuel with
    | zero => intro st; rfl
    | succ fuel ih =>
      intro st
      simp only [command_tool.Monitor.join]
      rw [if_pos (by decide), ih]
      simp [command_tool.Monitor.body, command_tool.Monitor.for_loop]
  have hne : ("alice" : String).isEmpty = false := by decide
  refine ⟨command_tool.Monitor.never_returns _ _ _ _ _ _ _ hne, ?_, ?_⟩
  · unfold command_tool.Monitor
    simp only [hne, Bool.false_eq_true, if_false, command_tool.Monitor.join_never_returns]
    exact hjoin fuel _
  · unfold command_tool.Monitor
    simp only [hne, Bool.false_eq_true, if_false, command_tool.Monitor.join_never_returns]
    rfl

/-- After the popping loop of `PrintChirps` the stack is empty or has the parent
id on top: the condition of the push holds. -/
theorem command_tool.PrintChirps.pop_leaves_parent_on_top (parent_id : Nat) (dfs : List Nat) :
    (command_tool.PrintChirps.pop parent_id dfs).isEmpty = true
      ∨ (command_tool.PrintChirps.pop parent_id dfs).head? = some parent_id := by
  induction dfs with
  | nil => exact Or.inl rfl
  | cons top dfs ih =>
    by_cases h : top = parent_id
    · right; simp [command_tool.PrintChirps.pop, h]
    · simpa [command_tool.PrintChirps.pop, h] using ih

theorem command_tool.PrintChirps.pop_length_le (parent_id : Nat) (dfs : List Nat) :
    (command_tool.PrintChirps.pop parent_id dfs).length ≤ dfs.length := by
  induction dfs with
  | nil => simp [command_tool.PrintChirps.pop]
  | cons top dfs ih =>
    by_cases h : top = parent_id
    · simp [command_tool.PrintChirps.pop, h]
    · simp only [command_tool.PrintChirps.pop, ne_eq, h, not_false_eq_true, if_true,
        List.length_cons]
      omega

/-- One iteration of the loop of `PrintChirps`: the chirp is printed and its id
is pushed, whatever the stack. -/
theorem command_tool.PrintChirps.loop_cons (chirp : ServiceClient.Chirp)
    (chirps : List ServiceClient.Chirp) (dfs : List Nat) (cout : List Out) :
    command_tool.PrintChirps.loop (chirp :: chirps) dfs cout
      = command_tool.PrintChirps.loop chirps
          (chirp.id :: command_tool.PrintChirps.pop chirp.parent_id dfs)
          (cout ++ [Out.PrintSingleChirp chirp
            (command_tool.PrintChirps.pop chirp.parent_id dfs).length,
            command_tool.separator]) := by
  have h := command_tool.PrintChirps.pop_leaves_parent_on_top chirp.parent_id dfs
  simp only [command_tool.PrintChirps.loop]
  rw [if_pos h]

theorem command_tool.PrintChirps.loop_eq_pads (chirps : List ServiceClient.Chirp) :
    ∀ (dfs : List Nat) (cout : List Out),
      (command_tool.PrintChirps.loop chirps dfs cout).2
        = cout ++ command_tool.PrintChirps.render (command_tool.PrintChirps.pads chirps dfs) := by
  induction chirps with
  | nil =>
    intro dfs cout
    simp [command_tool.PrintChirps.loop, command_tool.PrintChirps.pads,
      command_tool.PrintChirps.render]
  | cons c cs ih =>
    intro dfs cout
    rw [command_tool.PrintChirps.loop_cons, ih]
    simp [command_tool.PrintChirps.pads, command_tool.PrintChirps.render, List.flatMap_cons]

theorem command_tool.PrintChirps.printed_eq_pads (chirps : List ServiceClient.Chirp) :
    command_tool.PrintChirps.printed chirps = command_tool.PrintChirps.pads chirps [] := by
  unfold command_tool.PrintChirps.printed command_tool.PrintChirps
  rw [command_tool.PrintChirps.loop_eq_pads, Out.calls_append, Out.calls_render]
  simp [Out.calls, command_tool.separator]

theorem command_tool.PrintChirps.pads_fst (chirps : List ServiceClient.Chirp) :
    ∀ dfs : List Nat, (command_tool.PrintChirps.pads chirps dfs).map Prod.fst = chirps := by
  induction chirps with
  | nil => intro dfs; rfl
  | cons c cs ih => intro dfs; simp [command_tool.PrintChirps.pads, ih]

/-- In the list `PrintChirps` prints from a stack `dfs` on, the first padding is
at most the height of `dfs` and every other padding is at most one more than the
padding before it. -/
theorem command_tool.PrintChirps.pads_step (chirps : List ServiceClient.Chirp) :
    ∀ (dfs : List Nat),
      (∀ c k, (command_tool.PrintChirps.pads chirps dfs)[0]? = some (c, k) → k ≤ dfs.length)
      ∧ ∀ (i : Nat) (c c' : ServiceClient.Chirp) (k k' : Nat),
          (command_tool.PrintChirps.pads chirps dfs)[i]? = some (c, k) →
          (command_tool.PrintChirps.pads chirps dfs)[i + 1]? = some (c', k') → k' ≤ k + 1 := by
  induction chirps with
  | nil =>
    intro dfs
    exact ⟨fun c k h => by simp [command_tool.PrintChirps.pads] at h,
      fun i c c' k k' h => by simp [command_tool.PrintChirps.pads] at h⟩
  | cons c0 cs ih =>
    intro dfs
    constructor
    · intro c k h
      simp only [command_tool.PrintChirps.pads, List.getElem?_cons_zero, Option.some.injEq,
        Prod.mk.injEq] at h
      rw [← h.2]
      exact command_tool.PrintChirps.pop_length_le _ _
    · intro i c c' k k' h h'
      have ih' := ih (c0.id :: command_tool.PrintChirps.pop c0.parent_id dfs)
      simp only [command_tool.PrintChirps.pads, List.getElem?_cons_succ] at h'
      cases i with
      | zero =>
        simp only [command_tool.PrintChirps.pads, List.getElem?_cons_zero, Option.some.injEq,
          Prod.mk.injEq] at h
        have := ih'.1 c' k' h'
        rw [← h.2]
        simpa using this
      | succ i =>
        simp only [command_tool.PrintChirps.pads, List.getElem?_cons_succ] at h
        exact ih'.2 i c c' k k' h h'

/-- C16: for every list of chirps, `command_tool::PrintChirps` prints every
chirp once, in list order; the first chirp gets padding 0; every later chirp
gets a padding at most one greater than the padding of the chirp printed just
before it; and after each iteration of the loop the id of the chirp just printed
is on top of the stack, because the condition of the push holds for every stack
the popping loop can leave. -/
theorem PrintChirps_prints_all_with_bounded_padding (chirps : List ServiceClient.Chirp) :
    (command_tool.PrintChirps.printed chirps).map Prod.fst = chirps
    ∧ (command_tool.PrintChirps.printed chirps)[0]?.map Prod.snd = chirps[0]?.map (fun _ => 0)
    ∧ (∀ (i : Nat) (c c' : ServiceClient.Chirp) (k k' : Nat),
        (command_tool.PrintChirps.printed chirps)[i]? = some (c, k) →
        (command_tool.PrintChirps.printed chirps)[i + 1]? = some (c', k') → k' ≤ k + 1)
    ∧ (∀ (done rest : List ServiceClient.Chirp) (chirp : ServiceClient.Chirp),
        chirps = done ++ chirp :: rest →
        (command_tool.PrintChirps.loop (done ++ [chirp]) [] [command_tool.separator]).1.head?
          = some chirp.id)
    ∧ (∀ (parent_id : Nat) (dfs : List Nat),
        (command_tool.PrintChirps.pop parent_id dfs).isEmpty = true
          ∨ (command_tool.PrintChirps.pop parent_id dfs).head? = some parent_id) := by
  refine ⟨?_, ?_, ?_, ?_, command_tool.PrintChirps.pop_leaves_parent_on_top⟩
  · rw [command_tool.PrintChirps.printed_eq_pads, command_tool.PrintChirps.pads_fst]
  · rw [command_tool.PrintChirps.printed_eq_pads]
    cases chirps with
    | nil => rfl
    | cons c cs => simp [command_tool.PrintChirps.pads, command_tool.PrintChirps.pop]
  · rw [command_tool.PrintChirps.printed_eq_pads]
    exact (command_tool.PrintChirps.pads_step chirps []).2
  · intro done rest chirp _
    rw [command_tool.PrintChirps.loop_append, command_tool.PrintChirps.loop_cons]
    rfl

/-- C16 on a list in which no later chirp has its parent listed: the ids 1, 3, 4
with parents 0, 2, 1. All three are printed, with paddings 0, 0, 0, and after the
second iteration the id 3 is on top of the stack. -/
theorem PrintChirps_prints_all_with_bounded_padding_witness :
    (command_tool.PrintChirps.printed
        [sampleChirp 1 0, sampleChirp 3 2, sampleChirp 4 1]).map Prod.fst
      = [sampleChirp 1 0, sampleChirp 3 2, sampleChirp 4 1]
    ∧ (command_tool.PrintChirps.loop ([sampleChirp 1 0] ++ [sampleChirp 3 2]) []
        [command_tool.separator]).1.head? = some 3
    ∧ (command_tool.PrintChirps.printed
        [sampleChirp 1 0, sampleChirp 3 2, sampleChirp 4 1]).map Prod.snd = [0, 0, 0] :=
  ⟨(PrintChirps_prints_all_with_bounded_padding
      [sampleChirp 1 0, sampleChirp 3 2, sampleChirp 4 1]).1,
    (PrintChirps_prints_all_with_bounded_padding
      [sampleChirp 1 0, sampleChirp 3 2, sampleChirp 4 1]).2.2.2.1
      [sampleChirp 1 0] [sampleChirp 4 1] (sampleChirp 3 2) rfl,
    by decide⟩

/-- C11: `BackendClient::SendGetRequest` called with a null `reply_values` and one
key, against a `KeyValueStoreImpl` over any store: the server answers one reply,
and the reading loop dereferences the null pointer to store it. Against any
server, the call with a null `reply_values` dereferences it as soon as one reply
arrives; only when no reply arrives does it return, with `true` exactly when the
status is OK. -/
theorem SendGetRequest_null_reply_values_faults {σ : Type}
    (backend_data_ : BackendDataStructure σ) (s : σ) :
    BackendClient.SendGetRequest (KeyValueStoreImpl.stub backend_data_) s ["k"] none = none
    ∧ BackendClient.SendGetRequest (KeyValueStoreImpl.stub backend_data_) s [] none
        = some (true, none, s)
    ∧ (∀ (ω : Type) (stub_ : Stub ω) (w : ω) (keys : List String),
        BackendClient.SendGetRequest stub_ w keys none
          = if (stub_.get w (BackendClient.SendGetRequest.writer keys)).1.1.isEmpty = true then
              some ((stub_.get w (BackendClient.SendGetRequest.writer keys)).1.2.ok, none,
                (stub_.get w (BackendClient.SendGetRequest.writer keys)).2)
            else none) := by
  refine ⟨?_, rfl, ?_⟩
  · simp [BackendClient.SendGetRequest, BackendClient.SendGetRequest.writer,
      KeyValueStoreImpl.stub, KeyValueStoreImpl.get, KeyValueStoreImpl.get_loop,
      BackendClient.SendGetRequest.reader]
  · intro ω stub_ w keys
    unfold BackendClient.SendGetRequest
    dsimp only
    cases (stub_.get w (BackendClient.SendGetRequest.writer keys)).1.1 with
    | nil => simp [BackendClient.SendGetRequest.reader]
    | cons r rs => simp [BackendClient.SendGetRequest.reader]

end Chirp
